import Mathlib

/-!
Verification development for the Ravun compiler front end
(lexer, recursive-descent parser, scope-based semantic analyzer).

The Rust sources are shallowly embedded: each Rust function becomes an
executable Lean definition over explicit state records.  Machine integers
(`usize`) are modelled as `Nat`; Rust's `char` classification predicates
(`is_alphabetic`, `is_digit(10)`, `is_alphanumeric`, `is_whitespace`) are
modelled by Lean's ASCII `Char.isAlpha`, `Char.isDigit`, `Char.isAlphanum`,
`Char.isWhitespace`, which agree with Rust on the ASCII inputs the language
grammar is built from.  Iterator-based cursors (`Peekable<Chars>`,
`Peekable<IntoIter<Token>>`) become explicit remaining-input lists.
Loops that the Rust code drives by cursor progress are either proved
terminating by the length of the remaining input, or take an explicit fuel
argument returning `none` on exhaustion (used only where the Rust loop's
progress argument is itself part of a verified property).
-/

namespace Ravun

/-! ## Lexer data model (src/lexer/token.rs) -/

/-- `TokenType` from token.rs. -/
inductive TokenType where
  | Let | Mut | Const | Fn | Return | If | Else | For | While | In
  | Struct | Impl | Mod | Pub | Async | Parallel | Match
  | Identifier | IntLiteral | FloatLiteral | StringLiteral | CharLiteral | BoolLiteral
  | Plus | Minus | Asterisk | Slash | Percent | Caret
  | Equal | NotEqual | Greater | Less | GreaterEq | LessEq
  | Assign | PlusAssign | MinusAssign | MulAssign | DivAssign
  | LeftParen | RightParen | LeftBrace | RightBrace | LeftBracket | RightBracket
  | Semicolon | Colon | Comma | Dot | DoubleDot | Arrow
  | Comment | Whitespace | EOF
  | Invalid
  deriving DecidableEq, Repr

/-- `Token` from token.rs: kind, lexeme text, 1-based line and column. -/
structure Token where
  token_type : TokenType
  lexeme : String
  line : Nat
  column : Nat
  deriving DecidableEq, Repr

/-- `Token::new`. -/
def Token.new (token_type : TokenType) (lexeme : String) (line column : Nat) : Token :=
  ⟨token_type, lexeme, line, column⟩

/-! ## Lexer (src/lexer/lexer.rs) -/

/-- The `Lexer` struct: remaining character stream plus cursor position. -/
structure LexState where
  input : List Char
  line : Nat
  column : Nat
  position : Nat
  deriving DecidableEq, Repr

namespace Lexer

/-- `Lexer::new`. -/
def new (source : String) : LexState :=
  ⟨source.data, 1, 1, 0⟩

/-- `Lexer::advance`: consume one character, updating position, line, column. -/
def advance (s : LexState) : Option Char × LexState :=
  match s.input with
  | [] => (none, s)
  | c :: rest =>
      (some c,
        { input := rest
          line := if c = '\n' then s.line + 1 else s.line
          column := if c = '\n' then 1 else s.column + 1
          position := s.position + 1 })

/-- `Lexer::peek`. -/
def peek (s : LexState) : Option Char :=
  s.input.head?

/-- Body of `Lexer::skip_whitespace`.  The fuel only bounds the loop, which
consumes one character per round: `input.length + 1` (supplied by the
wrapper below) always suffices. -/
def skipWhitespaceF : Nat → LexState → LexState
  | 0, s => s
  | fuel + 1, s =>
      match s.input with
      | [] => s
      | c :: _ =>
          if c.isWhitespace then skipWhitespaceF fuel (advance s).2 else s

/-- `Lexer::skip_whitespace`. -/
def skipWhitespace (s : LexState) : LexState :=
  skipWhitespaceF (s.input.length + 1) s

/-- Scanning loop of `Lexer::identifier`: extend while alphanumeric or
underscore (fuelled; one character consumed per round). -/
def identLoopF : Nat → LexState → String → String × LexState
  | 0, s, acc => (acc, s)
  | fuel + 1, s, acc =>
      match s.input with
      | [] => (acc, s)
      | c :: _ =>
          if c.isAlphanum ∨ c = '_' then identLoopF fuel (advance s).2 (acc.push c)
          else (acc, s)

/-- The scanning loop entered with the whole remaining input. -/
def identLoop (s : LexState) (acc : String) : String × LexState :=
  identLoopF (s.input.length + 1) s acc

/-- Keyword table of `Lexer::identifier`. -/
def keywordType (identifier : String) : TokenType :=
  match identifier with
  | "let" => .Let
  | "mut" => .Mut
  | "const" => .Const
  | "fn" => .Fn
  | "return" => .Return
  | "if" => .If
  | "else" => .Else
  | "for" => .For
  | "while" => .While
  | "in" => .In
  | "struct" => .Struct
  | "impl" => .Impl
  | "mod" => .Mod
  | "pub" => .Pub
  | "async" => .Async
  | "parallel" => .Parallel
  | "match" => .Match
  | "true" => .BoolLiteral
  | "false" => .BoolLiteral
  | _ => .Identifier

/-- `Lexer::identifier` (entered after `first_char` has been consumed). -/
def identifier (s : LexState) (first_char : Char) : Token × LexState :=
  let start_pos := s.column - 1
  let (ident, s') := identLoop s (String.singleton first_char)
  (Token.new (keywordType ident) ident s'.line start_pos, s')

/-- Scanning loop of `Lexer::number`.  A decimal point followed by a
non-digit character yields an `Invalid` token immediately; a decimal point
at the very end of the input merely sets `is_float` and the loop then
terminates normally, producing a `FloatLiteral`. -/
def numberLoopF : Nat → LexState → String → Bool → Nat → Token × LexState
  | 0, s, acc, is_float, start_pos =>
      (Token.new (if is_float then .FloatLiteral else .IntLiteral) acc s.line start_pos, s)
  | fuel + 1, s, acc, is_float, start_pos =>
      match s.input with
      | [] =>
          (Token.new (if is_float then .FloatLiteral else .IntLiteral) acc s.line start_pos,
            s)
      | c :: _ =>
          if c.isDigit then
            numberLoopF fuel (advance s).2 (acc.push c) is_float start_pos
          else if c = '.' ∧ is_float = false then
            let s' := (advance s).2
            let acc' := acc.push c
            match s'.input with
            | next :: _ =>
                if ¬ next.isDigit then
                  (Token.new .Invalid acc' s'.line start_pos, s')
                else
                  numberLoopF fuel s' acc' true start_pos
            | [] => numberLoopF fuel s' acc' true start_pos
          else
            (Token.new (if is_float then .FloatLiteral else .IntLiteral) acc s.line
              start_pos, s)

/-- The scanning loop entered with the whole remaining input. -/
def numberLoop (s : LexState) (acc : String) (is_float : Bool) (start_pos : Nat) :
    Token × LexState :=
  numberLoopF (s.input.length + 1) s acc is_float start_pos

/-- `Lexer::number` (entered after `first_digit` has been consumed). -/
def number (s : LexState) (first_digit : Char) : Token × LexState :=
  numberLoop s (String.singleton first_digit) false (s.column - 1)

/-- Scanning loop of `Lexer::string`: processes C-style escapes; an
unterminated string at end of input yields an `Invalid` token. -/
def stringLoopF : Nat → LexState → String → Bool → Nat → Token × LexState
  | 0, s, acc, _, start_pos => (Token.new .Invalid acc s.line start_pos, s)
  | fuel + 1, s, acc, escaped, start_pos =>
      match s.input with
      | [] => (Token.new .Invalid acc s.line start_pos, s)
      | c :: _ =>
          let s' := (advance s).2
          if escaped then
            let acc' :=
              match c with
              | 'n' => acc.push '\n'
              | 't' => acc.push '\t'
              | 'r' => acc.push '\r'
              | '\\' => acc.push '\\'
              | '"' => acc.push '"'
              | _ => (acc.push '\\').push c
            stringLoopF fuel s' acc' false start_pos
          else if c = '\\' then stringLoopF fuel s' acc true start_pos
          else if c = '"' then (Token.new .StringLiteral acc s'.line start_pos, s')
          else stringLoopF fuel s' (acc.push c) false start_pos

/-- The scanning loop entered with the whole remaining input. -/
def stringLoop (s : LexState) (acc : String) (escaped : Bool) (start_pos : Nat) :
    Token × LexState :=
  stringLoopF (s.input.length + 1) s acc escaped start_pos

/-- `Lexer::string` (entered after the opening quote has been consumed). -/
def stringLit (s : LexState) : Token × LexState :=
  stringLoop s "" false (s.column - 1)

/-- Line-comment loop of `Lexer::comment`: consume to end of line. -/
def commentLineLoopF : Nat → LexState → String → String × LexState
  | 0, s, acc => (acc, s)
  | fuel + 1, s, acc =>
      match s.input with
      | [] => (acc, s)
      | c :: _ =>
          let s' := (advance s).2
          if c = '\n' then (acc.push c, s')
          else commentLineLoopF fuel s' (acc.push c)

/-- The line-comment loop entered with the whole remaining input. -/
def commentLineLoop (s : LexState) (acc : String) : String × LexState :=
  commentLineLoopF (s.input.length + 1) s acc

/-- Block-comment loop of `Lexer::comment`: consume until `*/`, tolerating a
missing closer by consuming to end of input. -/
def commentBlockLoopF : Nat → LexState → String → Char → String × LexState
  | 0, s, acc, _ => (acc, s)
  | fuel + 1, s, acc, prev_char =>
      match s.input with
      | [] => (acc, s)
      | c :: _ =>
          let s' := (advance s).2
          if prev_char = '*' ∧ c = '/' then (acc.push c, s')
          else commentBlockLoopF fuel s' (acc.push c) c

/-- The block-comment loop entered with the whole remaining input. -/
def commentBlockLoop (s : LexState) (acc : String) (prev_char : Char) : String × LexState :=
  commentBlockLoopF (s.input.length + 1) s acc prev_char

/-- `Lexer::comment` (entered after the first `/` has been consumed):
produces a `Slash`, a line `Comment`, or a block `Comment` token. -/
def comment (s : LexState) : Token × LexState :=
  let start_pos := s.column - 1
  match s.input with
  | [] => (Token.new .Slash "/" s.line start_pos, s)
  | next :: _ =>
      if next = '/' then
        let s₁ := (advance s).2
        let (acc, s₂) := commentLineLoop s₁ "//"
        (Token.new .Comment acc s₂.line start_pos, s₂)
      else if next = '*' then
        let s₁ := (advance s).2
        let (acc, s₂) := commentBlockLoop s₁ "/*" '\x00'
        (Token.new .Comment acc s₂.line start_pos, s₂)
      else
        (Token.new .Slash "/" s.line start_pos, s)

/-- One- or two-character operator starting with `first`: looks one
character ahead for `second`; models the repeated lookahead pattern of
`next_token`'s `+ - * = ! > < .` arms. -/
def twoCharOp (s : LexState) (first : String) (second : Char)
    (oneTy : TokenType) (twoTy : TokenType) (twoLex : String) : Token × LexState :=
  let start_pos := s.column - 1
  match s.input with
  | [] => (Token.new oneTy first s.line start_pos, s)
  | next :: _ =>
      if next = second then
        let s' := (advance s).2
        (Token.new twoTy twoLex s'.line start_pos, s')
      else
        (Token.new oneTy first s.line start_pos, s)

/-- `Lexer::next_token`: skip whitespace, then dispatch on the first
remaining character; at end of input produce an `EOF` token. -/
def nextToken (s₀ : LexState) : Token × LexState :=
  let s := skipWhitespace s₀
  match s.input with
  | [] => (Token.new .EOF "" s.line s.column, s)
  | c :: _ =>
      let s' := (advance s).2
      if c.isAlpha ∨ c = '_' then identifier s' c
      else if c.isDigit then number s' c
      else if c = '"' then stringLit s'
      else if c = '/' then comment s'
      else if c = '+' then twoCharOp s' "+" '=' .Plus .PlusAssign "+="
      else if c = '-' then
        -- the `-` arm checks for both `-=` and `->`
        let start_pos := s'.column - 1
        match s'.input with
        | [] => (Token.new .Minus "-" s'.line start_pos, s')
        | next :: _ =>
            if next = '=' then
              let s'' := (advance s').2
              (Token.new .MinusAssign "-=" s''.line start_pos, s'')
            else if next = '>' then
              let s'' := (advance s').2
              (Token.new .Arrow "->" s''.line start_pos, s'')
            else (Token.new .Minus "-" s'.line start_pos, s')
      else if c = '*' then twoCharOp s' "*" '=' .Asterisk .MulAssign "*="
      else if c = '%' then (Token.new .Percent "%" s'.line (s'.column - 1), s')
      else if c = '^' then (Token.new .Caret "^" s'.line (s'.column - 1), s')
      else if c = '=' then twoCharOp s' "=" '=' .Assign .Equal "=="
      else if c = '!' then twoCharOp s' "!" '=' .Invalid .NotEqual "!="
      else if c = '>' then twoCharOp s' ">" '=' .Greater .GreaterEq ">="
      else if c = '<' then twoCharOp s' "<" '=' .Less .LessEq "<="
      else if c = '(' then (Token.new .LeftParen "(" s'.line (s'.column - 1), s')
      else if c = ')' then (Token.new .RightParen ")" s'.line (s'.column - 1), s')
      else if c = '{' then (Token.new .LeftBrace "\x7b" s'.line (s'.column - 1), s')
      else if c = '}' then (Token.new .RightBrace "\x7d" s'.line (s'.column - 1), s')
      else if c = '[' then (Token.new .LeftBracket "[" s'.line (s'.column - 1), s')
      else if c = ']' then (Token.new .RightBracket "]" s'.line (s'.column - 1), s')
      else if c = ';' then (Token.new .Semicolon ";" s'.line (s'.column - 1), s')
      else if c = ':' then (Token.new .Colon ":" s'.line (s'.column - 1), s')
      else if c = ',' then (Token.new .Comma "," s'.line (s'.column - 1), s')
      else if c = '.' then twoCharOp s' "." '.' .Dot .DoubleDot ".."
      else (Token.new .Invalid (String.singleton c) s'.line (s'.column - 1), s')

/-- Fuelled loop of `Lexer::tokenize`: push each token, breaking after the
`EOF` token and silently dropping `Comment` and `Whitespace` tokens. -/
def tokenizeAux (fuel : Nat) (s : LexState) : Option (List Token) :=
  match fuel with
  | 0 => none
  | fuel + 1 =>
      let (token, s') := nextToken s
      if token.token_type = .EOF then some [token]
      else do
        let rest ← tokenizeAux fuel s'
        if token.token_type ≠ .Comment ∧ token.token_type ≠ .Whitespace then
          some (token :: rest)
        else
          some rest

/-- `Lexer::tokenize` on a whole source string.  The Rust loop is unbounded;
`input.length + 1` rounds of `next_token` are proved sufficient (each
non-final round consumes at least one character). -/
def tokenize (source : String) : Option (List Token) :=
  tokenizeAux (source.data.length + 1) (new source)

end Lexer

/-! ## AST model (src/parser/ast.rs)

`AstNodeType::TypeAnnotation` is rendered `TypeAnn` here.  The `kind`
payload field (`Option<AstNodeKind>`) is omitted from the embedding: the
lexer-parser-analyzer pipeline never sets or reads it (it is always `None`
on every node the parser builds). -/

/-- `AstNodeType` from ast.rs (`TypeAnnotation` rendered `TypeAnn`). -/
inductive AstNodeType where
  | Program
  | BinaryExpr | UnaryExpr | LiteralExpr | IdentifierExpr | GroupExpr
  | CallExpr | IndexExpr | MemberExpr
  | ExprStmt | BlockStmt | IfStmt | WhileStmt | ForStmt | ReturnStmt
  | VarDecl | FuncDecl | StructDecl | ImplDecl | ModDecl | ParamDecl
  | TypeAnn
  deriving DecidableEq, Repr

/-- `AstNode` from ast.rs: category, originating token, children, optional
string value and metadata, plus the line/column copied from the token. -/
inductive AstNode where
  | mk (node_type : AstNodeType) (token : Option Token) (children : List AstNode)
       (value : Option String) (metadata : Option String) (line : Nat) (column : Nat)

namespace AstNode

def node_type : AstNode → AstNodeType
  | mk t _ _ _ _ _ _ => t

def token : AstNode → Option Token
  | mk _ tok _ _ _ _ _ => tok

def children : AstNode → List AstNode
  | mk _ _ cs _ _ _ _ => cs

def value : AstNode → Option String
  | mk _ _ _ v _ _ _ => v

def metadata : AstNode → Option String
  | mk _ _ _ _ m _ _ => m

def line : AstNode → Nat
  | mk _ _ _ _ _ l _ => l

def column : AstNode → Nat
  | mk _ _ _ _ _ _ c => c

/-- `AstNode::new`: position copied from the originating token when present. -/
def new (node_type : AstNodeType) (token : Option Token) : AstNode :=
  match token with
  | some tok => mk node_type (some tok) [] none none tok.line tok.column
  | none => mk node_type none [] none none 0 0

/-- `AstNode::add_child`. -/
def add_child : AstNode → AstNode → AstNode
  | mk t tok cs v m l c, child => mk t tok (cs ++ [child]) v m l c

/-- `AstNode::set_value`. -/
def set_value : AstNode → String → AstNode
  | mk t tok cs _ m l c, v => mk t tok cs (some v) m l c

/-- `AstNode::set_metadata`. -/
def set_metadata : AstNode → String → AstNode
  | mk t tok cs v _ l c, m => mk t tok cs v (some m) l c

mutual
/-- The `PartialEq` impl of `AstNode`: structural equality over category,
value, metadata and children, ignoring token and position. -/
def structEq : AstNode → AstNode → Bool
  | mk t₁ _ c₁ v₁ m₁ _ _, mk t₂ _ c₂ v₂ m₂ _ _ =>
      t₁ == t₂ && v₁ == v₂ && m₁ == m₂ && structEqList c₁ c₂

/-- Pointwise `structEq` on child lists. -/
def structEqList : List AstNode → List AstNode → Bool
  | [], [] => true
  | a :: as, b :: bs => structEq a b && structEqList as bs
  | _, _ => false
end

end AstNode

/-! ## Parser (src/parser/parser.rs) -/

/-- Debug rendering of a `TokenType`, as Rust's `{:?}` prints it inside
parse-error messages. -/
def TokenType.debugName : TokenType → String
  | .Let => "Let" | .Mut => "Mut" | .Const => "Const" | .Fn => "Fn"
  | .Return => "Return" | .If => "If" | .Else => "Else" | .For => "For"
  | .While => "While" | .In => "In" | .Struct => "Struct" | .Impl => "Impl"
  | .Mod => "Mod" | .Pub => "Pub" | .Async => "Async" | .Parallel => "Parallel"
  | .Match => "Match" | .Identifier => "Identifier" | .IntLiteral => "IntLiteral"
  | .FloatLiteral => "FloatLiteral" | .StringLiteral => "StringLiteral"
  | .CharLiteral => "CharLiteral" | .BoolLiteral => "BoolLiteral"
  | .Plus => "Plus" | .Minus => "Minus" | .Asterisk => "Asterisk"
  | .Slash => "Slash" | .Percent => "Percent" | .Caret => "Caret"
  | .Equal => "Equal" | .NotEqual => "NotEqual" | .Greater => "Greater"
  | .Less => "Less" | .GreaterEq => "GreaterEq" | .LessEq => "LessEq"
  | .Assign => "Assign" | .PlusAssign => "PlusAssign" | .MinusAssign => "MinusAssign"
  | .MulAssign => "MulAssign" | .DivAssign => "DivAssign"
  | .LeftParen => "LeftParen" | .RightParen => "RightParen"
  | .LeftBrace => "LeftBrace" | .RightBrace => "RightBrace"
  | .LeftBracket => "LeftBracket" | .RightBracket => "RightBracket"
  | .Semicolon => "Semicolon" | .Colon => "Colon" | .Comma => "Comma"
  | .Dot => "Dot" | .DoubleDot => "DoubleDot" | .Arrow => "Arrow"
  | .Comment => "Comment" | .Whitespace => "Whitespace" | .EOF => "EOF"
  | .Invalid => "Invalid"

/-- The `Parser` struct: remaining tokens, the current token, and the
accumulated parse-error strings. -/
structure PState where
  rest : List Token
  cur : Option Token
  errors : List String
  deriving Repr

namespace Parser

/-- `Parser::advance`: pull the next token from the stream. -/
def advance (s : PState) : PState :=
  { rest := s.rest.tail, cur := s.rest.head?, errors := s.errors }

/-- `Parser::new`: prime the cursor with one `advance`. -/
def new (tokens : List Token) : PState :=
  advance ⟨tokens, none, []⟩

/-- `Parser::check`. -/
def check (s : PState) (expected_type : TokenType) : Bool :=
  match s.cur with
  | some token => token.token_type == expected_type
  | none => false

/-- `Parser::peek` (defined in the source; never called by the parser). -/
def peek (s : PState) : Option Token :=
  s.rest.head?

/-- `Parser::consume`: take the current token if it has the expected type,
otherwise report it (with its kind and position) without advancing. -/
def consume (s : PState) (expected_type : TokenType) : Except String Token × PState :=
  match s.cur with
  | some token =>
      if token.token_type = expected_type then
        (.ok token, advance s)
      else
        let en := expected_type.debugName
        let fn := token.token_type.debugName
        let ln := toString token.line
        let cn := toString token.column
        (.error s!"Beklenen token tipi: {en}, bulunan: {fn} (satır: {ln}, sütun: {cn})", s)
  | none =>
      let en := expected_type.debugName
      (.error s!"Beklenen token tipi: {en}, dosya sonu bulundu", s)

/-- `Parser::error`: record a parse error. -/
def pushError (s : PState) (message : String) : PState :=
  { s with errors := s.errors ++ [message] }

/-- The declaration/statement starters that `Parser::synchronize` stops at. -/
def isSyncStart : TokenType → Bool
  | .Let | .Fn | .For | .If | .While | .Return | .Struct | .Impl | .Mod => true
  | _ => false

/-- Tokens not yet processed, counting the current one: the quantity each
`advance` strictly decreases while a current token exists. -/
def syncMeasure (s : PState) : Nat :=
  s.rest.length + (if s.cur.isSome then 1 else 0)

/-- `Parser::synchronize`: advance until a `;` is consumed or a token that
starts a new declaration/statement is reached (left unconsumed).  Fuelled:
each round with a current token advances, strictly decreasing
`syncMeasure`, so the `syncMeasure s + 1` fuel supplied by `synchronize`
below is never exhausted. -/
def synchronizeF : Nat → PState → PState
  | 0, s => s
  | fuel + 1, s =>
      match s.cur with
      | none => s
      | some token =>
          if token.token_type = .Semicolon then advance s
          else if isSyncStart token.token_type then s
          else synchronizeF fuel (advance s)

/-- `Parser::synchronize`. -/
def synchronize (s : PState) : PState :=
  synchronizeF (syncMeasure s + 1) s

/-- Propagate a Rust `?` on a fallible sub-parse (`Option` wraps fuel
exhaustion, `Except` the parse error, with the parser state threaded). -/
def bindRes (x : Option (Except String β × PState))
    (k : β → PState → Option (Except String α × PState)) :
    Option (Except String α × PState) := do
  let (r, s) ← x
  match r with
  | .ok b => k b s
  | .error e => some (.error e, s)

/-- Propagate a Rust `?` on a `consume` result. -/
def bindTok (x : Except String Token × PState)
    (k : Token → PState → Option (Except String α × PState)) :
    Option (Except String α × PState) :=
  match x with
  | (.ok t, s) => k t s
  | (.error e, s) => some (.error e, s)

/-- The parse error produced for an assignment whose left-hand side is not
an identifier, member, or index expression, naming the offending `=`
token's position. -/
def invalidTargetMsg (operator : Token) : String :=
  let ln := toString operator.line
  let cn := toString operator.column
  s!"Geçersiz atama hedefi, satır: {ln}, sütun: {cn}"

/-- `Parser::parse_type_annotation`. -/
def parseTypeAnn (s : PState) : Option (Except String AstNode × PState) :=
  bindTok (consume s .Identifier) fun type_name s₁ =>
  some (.ok ((AstNode.new .TypeAnn (some type_name)).set_value type_name.lexeme), s₁)

/-- Parameter loop of `Parser::parse_parameters`. -/
def parseParametersLoop (fuel : Nat) (acc : List AstNode) (s : PState) :
    Option (Except String (List AstNode) × PState) :=
  match fuel with
  | 0 => none
  | fuel + 1 =>
      bindTok (consume s .Identifier) fun param_name s₁ =>
      bindTok (consume s₁ .Colon) fun _ s₂ =>
      bindRes (parseTypeAnn s₂) fun param_type s₃ =>
      let param := ((AstNode.new .ParamDecl (some param_name)).set_value
        param_name.lexeme).add_child param_type
      if check s₃ .Comma then
        parseParametersLoop fuel (acc ++ [param]) (advance s₃)
      else
        some (.ok (acc ++ [param]), s₃)

/-- `Parser::parse_parameters`. -/
def parseParameters (fuel : Nat) (s : PState) :
    Option (Except String (List AstNode) × PState) :=
  if check s .RightParen then some (.ok [], s)
  else parseParametersLoop fuel [] s

/-- Field loop of `Parser::parse_struct_fields` (each field is
`name : type ,`, stopping once a `}` follows a field). -/
def parseStructFieldsLoop (fuel : Nat) (acc : List AstNode) (s : PState) :
    Option (Except String (List AstNode) × PState) :=
  match fuel with
  | 0 => none
  | fuel + 1 =>
      bindTok (consume s .Identifier) fun field_name s₁ =>
      bindTok (consume s₁ .Colon) fun _ s₂ =>
      bindRes (parseTypeAnn s₂) fun field_type s₃ =>
      bindTok (consume s₃ .Comma) fun _ s₄ =>
      let field := ((AstNode.new .VarDecl (some field_name)).set_value
        field_name.lexeme).add_child field_type
      if check s₄ .RightBrace then
        some (.ok (acc ++ [field]), s₄)
      else
        parseStructFieldsLoop fuel (acc ++ [field]) s₄

/-- `Parser::parse_struct_fields`. -/
def parseStructFields (fuel : Nat) (s : PState) :
    Option (Except String (List AstNode) × PState) :=
  if check s .RightBrace then some (.ok [], s)
  else parseStructFieldsLoop fuel [] s

/-- `Parser::parse_struct_declaration`. -/
def parseStructDeclaration (fuel : Nat) (s : PState) :
    Option (Except String AstNode × PState) :=
  bindTok (consume s .Struct) fun struct_token s₁ =>
  bindTok (consume s₁ .Identifier) fun identifier s₂ =>
  bindTok (consume s₂ .LeftBrace) fun _ s₃ =>
  bindRes (parseStructFields fuel s₃) fun fields s₄ =>
  bindTok (consume s₄ .RightBrace) fun _ s₅ =>
  let struct_decl := (AstNode.new .StructDecl (some struct_token)).set_value identifier.lexeme
  some (.ok (fields.foldl AstNode.add_child struct_decl), s₅)

mutual

/-- `Parser::parse_declaration`: dispatch on the current token. -/
def parseDeclaration : Nat → PState → Option (Except String AstNode × PState)
  | 0, _ => none
  | fuel + 1, s =>
      match s.cur with
      | some token =>
          match token.token_type with
          | .Let => parseVarDeclaration fuel s
          | .Fn => parseFunctionDeclaration fuel s
          | .Struct => parseStructDeclaration fuel s
          | .Impl => parseImplDeclaration fuel s
          | .Mod => parseModuleDeclaration fuel s
          | _ => parseStatement fuel s
      | none => some (.error "Beklenmeyen dosya sonu", s)

/-- `Parser::parse_var_declaration`:
`let [mut] name [: type] = expr ;`. -/
def parseVarDeclaration : Nat → PState → Option (Except String AstNode × PState)
  | 0, _ => none
  | fuel + 1, s =>
      bindTok (consume s .Let) fun let_token s₁ =>
      let mutStep : Bool × PState :=
        if check s₁ .Mut then (true, advance s₁) else (false, s₁)
      let is_mutable := mutStep.1
      let s₂ := mutStep.2
      bindTok (consume s₂ .Identifier) fun identifier s₃ =>
      let annStep : Option (Except String (Option AstNode) × PState) :=
        if check s₃ .Colon then
          bindRes (parseTypeAnn (advance s₃)) fun t s => some (.ok (some t), s)
        else some (.ok none, s₃)
      bindRes annStep fun type_annotation s₄ =>
      bindTok (consume s₄ .Assign) fun _ s₅ =>
      bindRes (parseExpression fuel s₅) fun initializer s₆ =>
      bindTok (consume s₆ .Semicolon) fun _ s₇ =>
      let var_decl := (AstNode.new .VarDecl (some let_token)).set_value identifier.lexeme
      let var_decl := if is_mutable then var_decl.set_metadata "mutable" else var_decl
      let var_decl :=
        match type_annotation with
        | some type_node => var_decl.add_child type_node
        | none => var_decl
      some (.ok (var_decl.add_child initializer), s₇)

/-- `Parser::parse_function_declaration`:
`fn name ( params ) [-> type] { block }`. -/
def parseFunctionDeclaration : Nat → PState → Option (Except String AstNode × PState)
  | 0, _ => none
  | fuel + 1, s =>
      bindTok (consume s .Fn) fun fn_token s₁ =>
      bindTok (consume s₁ .Identifier) fun identifier s₂ =>
      bindTok (consume s₂ .LeftParen) fun _ s₃ =>
      bindRes (parseParameters fuel s₃) fun parameters s₄ =>
      bindTok (consume s₄ .RightParen) fun _ s₅ =>
      let retStep : Option (Except String (Option AstNode) × PState) :=
        if check s₅ .Arrow then
          bindRes (parseTypeAnn (advance s₅)) fun t s => some (.ok (some t), s)
        else some (.ok none, s₅)
      bindRes retStep fun return_type s₆ =>
      bindRes (parseBlockStatement fuel s₆) fun body s₇ =>
      let func_decl := (AstNode.new .FuncDecl (some fn_token)).set_value identifier.lexeme
      let func_decl := parameters.foldl AstNode.add_child func_decl
      let func_decl :=
        match return_type with
        | some type_node => func_decl.add_child type_node
        | none => func_decl
      some (.ok (func_decl.add_child body), s₇)

/-- Method loop of `Parser::parse_impl_methods`. -/
def parseImplMethodsLoop : Nat → List AstNode → PState →
    Option (Except String (List AstNode) × PState)
  | 0, _, _ => none
  | fuel + 1, acc, s =>
      if check s .RightBrace then some (.ok acc, s)
      else
        bindRes (parseFunctionDeclaration fuel s) fun method s₁ =>
        parseImplMethodsLoop fuel (acc ++ [method]) s₁

/-- `Parser::parse_impl_declaration`. -/
def parseImplDeclaration : Nat → PState → Option (Except String AstNode × PState)
  | 0, _ => none
  | fuel + 1, s =>
      bindTok (consume s .Impl) fun impl_token s₁ =>
      bindTok (consume s₁ .Identifier) fun identifier s₂ =>
      bindTok (consume s₂ .LeftBrace) fun _ s₃ =>
      bindRes (parseImplMethodsLoop fuel [] s₃) fun methods s₄ =>
      bindTok (consume s₄ .RightBrace) fun _ s₅ =>
      let impl_decl := (AstNode.new .ImplDecl (some impl_token)).set_value identifier.lexeme
      some (.ok (methods.foldl AstNode.add_child impl_decl), s₅)

/-- Declaration loop of `Parser::parse_module_declarations`. -/
def parseModuleDeclarationsLoop : Nat → List AstNode → PState →
    Option (Except String (List AstNode) × PState)
  | 0, _, _ => none
  | fuel + 1, acc, s =>
      if check s .RightBrace then some (.ok acc, s)
      else
        bindRes (parseDeclaration fuel s) fun declaration s₁ =>
        parseModuleDeclarationsLoop fuel (acc ++ [declaration]) s₁

/-- `Parser::parse_module_declaration`. -/
def parseModuleDeclaration : Nat → PState → Option (Except String AstNode × PState)
  | 0, _ => none
  | fuel + 1, s =>
      bindTok (consume s .Mod) fun mod_token s₁ =>
      bindTok (consume s₁ .Identifier) fun identifier s₂ =>
      bindTok (consume s₂ .LeftBrace) fun _ s₃ =>
      bindRes (parseModuleDeclarationsLoop fuel [] s₃) fun declarations s₄ =>
      bindTok (consume s₄ .RightBrace) fun _ s₅ =>
      let mod_decl := (AstNode.new .ModDecl (some mod_token)).set_value identifier.lexeme
      some (.ok (declarations.foldl AstNode.add_child mod_decl), s₅)

/-- `Parser::parse_statement`: dispatch to a statement parser or fall
through to an expression statement. -/
def parseStatement : Nat → PState → Option (Except String AstNode × PState)
  | 0, _ => none
  | fuel + 1, s =>
      match s.cur with
      | some token =>
          match token.token_type with
          | .If => parseIfStatement fuel s
          | .While => parseWhileStatement fuel s
          | .For => parseForStatement fuel s
          | .Return => parseReturnStatement fuel s
          | .LeftBrace => parseBlockStatement fuel s
          | _ => parseExpressionStatement fuel s
      | none => some (.error "Beklenmeyen dosya sonu", s)

/-- `Parser::parse_if_statement` (with optional `else` / `else if`). -/
def parseIfStatement : Nat → PState → Option (Except String AstNode × PState)
  | 0, _ => none
  | fuel + 1, s =>
      bindTok (consume s .If) fun if_token s₁ =>
      bindRes (parseExpression fuel s₁) fun condition s₂ =>
      bindRes (parseBlockStatement fuel s₂) fun then_branch s₃ =>
      let elseStep : Option (Except String (Option AstNode) × PState) :=
        if check s₃ .Else then
          let s₄ := advance s₃
          if check s₄ .If then
            bindRes (parseIfStatement fuel s₄) fun e s => some (.ok (some e), s)
          else
            bindRes (parseBlockStatement fuel s₄) fun e s => some (.ok (some e), s)
        else some (.ok none, s₃)
      bindRes elseStep fun else_branch s₅ =>
      let if_stmt := ((AstNode.new .IfStmt (some if_token)).add_child condition).add_child
        then_branch
      let if_stmt :=
        match else_branch with
        | some else_node => if_stmt.add_child else_node
        | none => if_stmt
      some (.ok if_stmt, s₅)

/-- `Parser::parse_while_statement`. -/
def parseWhileStatement : Nat → PState → Option (Except String AstNode × PState)
  | 0, _ => none
  | fuel + 1, s =>
      bindTok (consume s .While) fun while_token s₁ =>
      bindRes (parseExpression fuel s₁) fun condition s₂ =>
      bindRes (parseBlockStatement fuel s₂) fun body s₃ =>
      some (.ok (((AstNode.new .WhileStmt (some while_token)).add_child
        condition).add_child body), s₃)

/-- `Parser::parse_for_statement`: `for name in expr { block }`. -/
def parseForStatement : Nat → PState → Option (Except String AstNode × PState)
  | 0, _ => none
  | fuel + 1, s =>
      bindTok (consume s .For) fun for_token s₁ =>
      bindTok (consume s₁ .Identifier) fun var_token s₂ =>
      bindTok (consume s₂ .In) fun _ s₃ =>
      bindRes (parseExpression fuel s₃) fun range s₄ =>
      bindRes (parseBlockStatement fuel s₄) fun body s₅ =>
      let var_node := (AstNode.new .IdentifierExpr (some var_token)).set_value var_token.lexeme
      some (.ok ((((AstNode.new .ForStmt (some for_token)).add_child
        var_node).add_child range).add_child body), s₅)

/-- `Parser::parse_return_statement`: `return [expr] ;`. -/
def parseReturnStatement : Nat → PState → Option (Except String AstNode × PState)
  | 0, _ => none
  | fuel + 1, s =>
      bindTok (consume s .Return) fun return_token s₁ =>
      let valueStep : Option (Except String (Option AstNode) × PState) :=
        if ¬ check s₁ .Semicolon then
          bindRes (parseExpression fuel s₁) fun v s => some (.ok (some v), s)
        else some (.ok none, s₁)
      bindRes valueStep fun value s₂ =>
      bindTok (consume s₂ .Semicolon) fun _ s₃ =>
      let return_stmt := AstNode.new .ReturnStmt (some return_token)
      let return_stmt :=
        match value with
        | some expr => return_stmt.add_child expr
        | none => return_stmt
      some (.ok return_stmt, s₃)

/-- Statement loop of `Parser::parse_block_statement`: parse declarations
until a `}` is current or the stream ends. -/
def parseBlockLoop : Nat → List AstNode → PState →
    Option (Except String (List AstNode) × PState)
  | 0, _, _ => none
  | fuel + 1, acc, s =>
      if ¬ check s .RightBrace ∧ s.cur.isSome then
        bindRes (parseDeclaration fuel s) fun statement s₁ =>
        parseBlockLoop fuel (acc ++ [statement]) s₁
      else
        some (.ok acc, s)

/-- `Parser::parse_block_statement`: `{ declarations }`. -/
def parseBlockStatement : Nat → PState → Option (Except String AstNode × PState)
  | 0, _ => none
  | fuel + 1, s =>
      bindTok (consume s .LeftBrace) fun brace_token s₁ =>
      bindRes (parseBlockLoop fuel [] s₁) fun statements s₂ =>
      bindTok (consume s₂ .RightBrace) fun _ s₃ =>
      some (.ok (statements.foldl AstNode.add_child
        (AstNode.new .BlockStmt (some brace_token))), s₃)

/-- `Parser::parse_expression_statement`: `expr ;`. -/
def parseExpressionStatement : Nat → PState → Option (Except String AstNode × PState)
  | 0, _ => none
  | fuel + 1, s =>
      bindRes (parseExpression fuel s) fun expression s₁ =>
      bindTok (consume s₁ .Semicolon) fun _ s₂ =>
      some (.ok ((AstNode.new .ExprStmt none).add_child expression), s₂)

/-- `Parser::parse_expression`: entry point of the precedence chain. -/
def parseExpression : Nat → PState → Option (Except String AstNode × PState)
  | 0, _ => none
  | fuel + 1, s => parseAssignment fuel s

/-- `Parser::parse_assignment`: right-associative; the left-hand side must
be an identifier, member, or index expression. -/
def parseAssignment : Nat → PState → Option (Except String AstNode × PState)
  | 0, _ => none
  | fuel + 1, s =>
      bindRes (parseEquality fuel s) fun expr s₁ =>
      match s₁.cur with
      | some token =>
          match token.token_type with
          | .Assign | .PlusAssign | .MinusAssign | .MulAssign | .DivAssign =>
              let operator := token
              bindRes (parseAssignment fuel (advance s₁)) fun value s₂ =>
              (match expr.node_type with
              | .IdentifierExpr | .MemberExpr | .IndexExpr =>
                  let assign_expr := (AstNode.new .BinaryExpr (some operator)).set_value
                    (match operator.token_type with
                     | .Assign => "="
                     | .PlusAssign => "+="
                     | .MinusAssign => "-="
                     | .MulAssign => "*="
                     | .DivAssign => "/="
                     | _ => "?=")
                  some (.ok ((assign_expr.add_child expr).add_child value), s₂)
              | _ => some (.error (invalidTargetMsg operator), s₂))
          | _ => some (.ok expr, s₁)
      | none => some (.ok expr, s₁)

/-- Operator loop of `Parser::parse_equality` (`== !=`, left-associative). -/
def parseEqualityLoop : Nat → AstNode → PState → Option (Except String AstNode × PState)
  | 0, _, _ => none
  | fuel + 1, expr, s =>
      match s.cur with
      | some token =>
          match token.token_type with
          | .Equal | .NotEqual =>
              let operator := token
              bindRes (parseComparison fuel (advance s)) fun right s₁ =>
              let binary_expr := (AstNode.new .BinaryExpr (some operator)).set_value
                (match operator.token_type with
                 | .Equal => "=="
                 | .NotEqual => "!="
                 | _ => "?")
              parseEqualityLoop fuel ((binary_expr.add_child expr).add_child right) s₁
          | _ => some (.ok expr, s)
      | none => some (.ok expr, s)

/-- `Parser::parse_equality`. -/
def parseEquality : Nat → PState → Option (Except String AstNode × PState)
  | 0, _ => none
  | fuel + 1, s =>
      bindRes (parseComparison fuel s) fun expr s₁ => parseEqualityLoop fuel expr s₁

/-- Operator loop of `Parser::parse_comparison` (`> >= < <=`,
left-associative). -/
def parseComparisonLoop : Nat → AstNode → PState → Option (Except String AstNode × PState)
  | 0, _, _ => none
  | fuel + 1, expr, s =>
      match s.cur with
      | some token =>
          match token.token_type with
          | .Greater | .GreaterEq | .Less | .LessEq =>
              let operator := token
              bindRes (parseTerm fuel (advance s)) fun right s₁ =>
              let binary_expr := (AstNode.new .BinaryExpr (some operator)).set_value
                (match operator.token_type with
                 | .Greater => ">"
                 | .GreaterEq => ">="
                 | .Less => "<"
                 | .LessEq => "<="
                 | _ => "?")
              parseComparisonLoop fuel ((binary_expr.add_child expr).add_child right) s₁
          | _ => some (.ok expr, s)
      | none => some (.ok expr, s)

/-- `Parser::parse_comparison`. -/
def parseComparison : Nat → PState → Option (Except String AstNode × PState)
  | 0, _ => none
  | fuel + 1, s =>
      bindRes (parseTerm fuel s) fun expr s₁ => parseComparisonLoop fuel expr s₁

/-- Operator loop of `Parser::parse_term` (`+ -`, left-associative). -/
def parseTermLoop : Nat → AstNode → PState → Option (Except String AstNode × PState)
  | 0, _, _ => none
  | fuel + 1, expr, s =>
      match s.cur with
      | some token =>
          match token.token_type with
          | .Plus | .Minus =>
              let operator := token
              bindRes (parseFactor fuel (advance s)) fun right s₁ =>
              let binary_expr := (AstNode.new .BinaryExpr (some operator)).set_value
                (match operator.token_type with
                 | .Plus => "+"
                 | .Minus => "-"
                 | _ => "?")
              parseTermLoop fuel ((binary_expr.add_child expr).add_child right) s₁
          | _ => some (.ok expr, s)
      | none => some (.ok expr, s)

/-- `Parser::parse_term`. -/
def parseTerm : Nat → PState → Option (Except String AstNode × PState)
  | 0, _ => none
  | fuel + 1, s =>
      bindRes (parseFactor fuel s) fun expr s₁ => parseTermLoop fuel expr s₁

/-- Operator loop of `Parser::parse_factor` (`* / %`, left-associative). -/
def parseFactorLoop : Nat → AstNode → PState → Option (Except String AstNode × PState)
  | 0, _, _ => none
  | fuel + 1, expr, s =>
      match s.cur with
      | some token =>
          match token.token_type with
          | .Asterisk | .Slash | .Percent =>
              let operator := token
              bindRes (parseUnary fuel (advance s)) fun right s₁ =>
              let binary_expr := (AstNode.new .BinaryExpr (some operator)).set_value
                (match operator.token_type with
                 | .Asterisk => "*"
                 | .Slash => "/"
                 | .Percent => "%"
                 | _ => "?")
              parseFactorLoop fuel ((binary_expr.add_child expr).add_child right) s₁
          | _ => some (.ok expr, s)
      | none => some (.ok expr, s)

/-- `Parser::parse_factor`. -/
def parseFactor : Nat → PState → Option (Except String AstNode × PState)
  | 0, _ => none
  | fuel + 1, s =>
      bindRes (parseUnary fuel s) fun expr s₁ => parseFactorLoop fuel expr s₁

/-- Operator loop of `Parser::parse_power` (`^`, left-associative). -/
def parsePowerLoop : Nat → AstNode → PState → Option (Except String AstNode × PState)
  | 0, _, _ => none
  | fuel + 1, expr, s =>
      match s.cur with
      | some token =>
          if token.token_type = .Caret then
            let operator := token
            bindRes (parsePrimary fuel (advance s)) fun right s₁ =>
            let binary_expr := (AstNode.new .BinaryExpr (some operator)).set_value "^"
            parsePowerLoop fuel ((binary_expr.add_child expr).add_child right) s₁
          else some (.ok expr, s)
      | none => some (.ok expr, s)

/-- `Parser::parse_power`. -/
def parsePower : Nat → PState → Option (Except String AstNode × PState)
  | 0, _ => none
  | fuel + 1, s =>
      bindRes (parsePrimary fuel s) fun expr s₁ => parsePowerLoop fuel expr s₁

/-- `Parser::parse_unary`: prefix `-`, binding looser than `^`. -/
def parseUnary : Nat → PState → Option (Except String AstNode × PState)
  | 0, _ => none
  | fuel + 1, s =>
      match s.cur with
      | some token =>
          if token.token_type = .Minus then
            let operator := token
            bindRes (parseUnary fuel (advance s)) fun right s₁ =>
            some (.ok ((((AstNode.new .UnaryExpr (some operator)).set_value
              "-").add_child right)), s₁)
          else parsePower fuel s
      | none => parsePower fuel s

/-- `Parser::parse_primary`: literals, identifiers (possibly calls), and
parenthesized groups; anything else is a parse error naming the token. -/
def parsePrimary : Nat → PState → Option (Except String AstNode × PState)
  | 0, _ => none
  | fuel + 1, s =>
      match s.cur with
      | some token =>
          match token.token_type with
          | .IntLiteral | .FloatLiteral | .StringLiteral | .BoolLiteral =>
              some (.ok ((AstNode.new .LiteralExpr (some token)).set_value token.lexeme),
                advance s)
          | .Identifier =>
              let identifier := token
              let s₁ := advance s
              if check s₁ .LeftParen then
                parseCallExpr fuel identifier s₁
              else
                some (.ok ((AstNode.new .IdentifierExpr (some identifier)).set_value
                  identifier.lexeme), s₁)
          | .LeftParen =>
              let s₁ := advance s
              bindRes (parseExpression fuel s₁) fun expr s₂ =>
              bindTok (consume s₂ .RightParen) fun _ s₃ =>
              some (.ok ((AstNode.new .GroupExpr none).add_child expr), s₃)
          | _ =>
              let tn := token.token_type.debugName
              let ln := toString token.line
              let cn := toString token.column
              some (.error s!"Beklenmeyen token: {tn}, satır: {ln}, sütun: {cn}", s)
      | none => some (.error "Beklenmeyen dosya sonu", s)

/-- Argument loop of `Parser::parse_call_expr`. -/
def parseCallArgsLoop : Nat → List AstNode → PState →
    Option (Except String (List AstNode) × PState)
  | 0, _, _ => none
  | fuel + 1, acc, s =>
      bindRes (parseExpression fuel s) fun arg s₁ =>
      if check s₁ .Comma then
        parseCallArgsLoop fuel (acc ++ [arg]) (advance s₁)
      else
        some (.ok (acc ++ [arg]), s₁)

/-- `Parser::parse_call_expr` (entered with the callee identifier consumed
and `(` current). -/
def parseCallExpr : Nat → Token → PState → Option (Except String AstNode × PState)
  | 0, _, _ => none
  | fuel + 1, identifier, s =>
      bindTok (consume s .LeftParen) fun _ s₁ =>
      let argsStep : Option (Except String (List AstNode) × PState) :=
        if ¬ check s₁ .RightParen then parseCallArgsLoop fuel [] s₁
        else some (.ok [], s₁)
      bindRes argsStep fun arguments s₂ =>
      bindTok (consume s₂ .RightParen) fun _ s₃ =>
      let call_expr := (AstNode.new .CallExpr (some identifier)).set_value identifier.lexeme
      some (.ok (arguments.foldl AstNode.add_child call_expr), s₃)

end

/-- Declaration loop of `Parser::parse_program`: on a declaration error the
message is recorded and the parser resynchronizes, then parsing resumes. -/
def parseProgramLoop : Nat → AstNode → PState → Option (AstNode × PState)
  | 0, _, _ => none
  | fuel + 1, program, s =>
      match s.cur with
      | none => some (program, s)
      | some _ => do
          let (r, s₁) ← parseDeclaration fuel s
          match r with
          | .ok declaration => parseProgramLoop fuel (program.add_child declaration) s₁
          | .error err => parseProgramLoop fuel program (synchronize (pushError s₁ err))

/-- `Parser::parse_program`. -/
def parseProgram (fuel : Nat) (s : PState) : Option (AstNode × PState) :=
  parseProgramLoop fuel (AstNode.new .Program none) s

/-- `Parser::parse`: the program node when no error was recorded, otherwise
the accumulated error list. -/
def parse (fuel : Nat) (tokens : List Token) : Option (Except (List String) AstNode) := do
  let (program, s) ← parseProgram fuel (new tokens)
  if s.errors.isEmpty then some (.ok program) else some (.error s.errors)

end Parser

/-! ## Semantic errors (src/semantics/error.rs) -/

/-- `SemanticErrorType` from error.rs. -/
inductive SemanticErrorType where
  | UndefinedVariable | UndefinedFunction | TypeMismatch
  | Redefinition | InvalidReturn | Other
  deriving DecidableEq, Repr

/-- `SemanticError` from error.rs. -/
structure SemanticError where
  error_type : SemanticErrorType
  message : String
  token : Option Token
  line : Nat
  column : Nat
  is_warning : Bool
  deriving DecidableEq, Repr

namespace SemanticError

/-- `SemanticError::new`: position copied from the token when present. -/
def new (error_type : SemanticErrorType) (message : String) (token : Option Token) :
    SemanticError :=
  match token with
  | some tok => ⟨error_type, message, some tok, tok.line, tok.column, false⟩
  | none => ⟨error_type, message, none, 0, 0, false⟩

/-- `SemanticError::with_position`. -/
def with_position (error_type : SemanticErrorType) (message : String)
    (line column : Nat) : SemanticError :=
  ⟨error_type, message, none, line, column, false⟩

end SemanticError

/-! ## Type system (src/semantics/types.rs)

The Rust `Type` enum is rendered `Ty` (`Type` is reserved in Lean);
`GenericConstraint::Type` is rendered `TypeC` for the same reason. -/

mutual
/-- The `Type` enum from types.rs. -/
inductive Ty where
  | int | float | string | bool | void
  | function (params : List Ty) (ret : Ty)
  | array (elem : Ty) (size : Option Nat)
  | struct (name : String)
  | module (name : String)
  | ref (inner : Ty)
  | optional (inner : Ty)
  | any
  | null
  | typeParameter (name : String) (constraint : Option GenericConstraint)
  | unknown
  | error

/-- `GenericConstraint` from types.rs (the `Type` variant rendered `TypeC`). -/
inductive GenericConstraint where
  | Trait (name : String)
  | TypeC (t : Ty)
end

mutual
/-- Equality on `Ty`, as Rust's structural `==` compares `Type` values. -/
def Ty.beq : Ty → Ty → Bool
  | .int, .int => true
  | .float, .float => true
  | .string, .string => true
  | .bool, .bool => true
  | .void, .void => true
  | .function p₁ r₁, .function p₂ r₂ => Ty.beqList p₁ p₂ && Ty.beq r₁ r₂
  | .array e₁ s₁, .array e₂ s₂ => Ty.beq e₁ e₂ && s₁ == s₂
  | .struct n₁, .struct n₂ => n₁ == n₂
  | .module n₁, .module n₂ => n₁ == n₂
  | .ref i₁, .ref i₂ => Ty.beq i₁ i₂
  | .optional i₁, .optional i₂ => Ty.beq i₁ i₂
  | .any, .any => true
  | .null, .null => true
  | .typeParameter n₁ c₁, .typeParameter n₂ c₂ => n₁ == n₂ && Ty.beqConstraintOpt c₁ c₂
  | .unknown, .unknown => true
  | .error, .error => true
  | _, _ => false
termination_by structural t => t

/-- Pointwise `Ty.beq` on parameter lists. -/
def Ty.beqList : List Ty → List Ty → Bool
  | [], [] => true
  | a :: as, b :: bs => Ty.beq a b && Ty.beqList as bs
  | _, _ => false
termination_by structural l => l

/-- Equality on optional constraints. -/
def Ty.beqConstraintOpt : Option GenericConstraint → Option GenericConstraint → Bool
  | none, none => true
  | some c₁, some c₂ => Ty.beqConstraint c₁ c₂
  | _, _ => false
termination_by structural o => o

/-- Equality on constraints. -/
def Ty.beqConstraint : GenericConstraint → GenericConstraint → Bool
  | .Trait n₁, .Trait n₂ => n₁ == n₂
  | .TypeC t₁, .TypeC t₂ => Ty.beq t₁ t₂
  | _, _ => false
termination_by structural g => g
end

instance : BEq Ty := ⟨Ty.beq⟩

mutual
/-- The `Display` impl of `Type`. -/
def Ty.display : Ty → String
  | .int => "int"
  | .float => "float"
  | .string => "string"
  | .bool => "bool"
  | .void => "void"
  | .function params ret => "fn(" ++ Ty.displayList params ++ ") -> " ++ ret.display
  | .array elem (some size) => elem.display ++ "[" ++ toString size ++ "]"
  | .array elem none => elem.display ++ "[]"
  | .struct name => name
  | .module name => "module:" ++ name
  | .ref inner => "&" ++ inner.display
  | .optional inner => inner.display ++ "?"
  | .any => "any"
  | .null => "null"
  | .typeParameter name _ => name
  | .unknown => "bilinmeyen"
  | .error => "hata"
termination_by structural t => t

/-- Comma-separated display of a parameter list. -/
def Ty.displayList : List Ty → String
  | [] => ""
  | [t] => t.display
  | t :: rest => t.display ++ ", " ++ Ty.displayList rest
termination_by structural l => l
end

/-- Fuelled body of `Type::from_name`; the fuel only bounds the recursion
into strictly shorter substrings (array element, `&` target, `?` target),
so `name.length + 1` always suffices.  `size_str.parse::<usize>().ok()` is
modelled by `String.toNat?`. -/
def Ty.fromNameAux : Nat → String → Ty
  | 0, _ => .unknown
  | fuel + 1, name =>
      match name with
      | "int" => .int
      | "float" => .float
      | "string" => .string
      | "bool" => .bool
      | "void" => .void
      | _ =>
          if name.endsWith "]" ∧ name.contains '[' then
            let base_end := (name.data.findIdx? (fun c => c = '[')).getD 0
            let base_type := Ty.fromNameAux fuel (String.mk (name.data.take base_end))
            let size_str := String.mk ((name.data.drop (base_end + 1)).dropLast)
            let size := if size_str.isEmpty then none else size_str.toNat?
            .array base_type size
          else if name.startsWith "&" then
            .ref (Ty.fromNameAux fuel (String.mk (name.data.drop 1)))
          else if name.endsWith "?" then
            .optional (Ty.fromNameAux fuel (String.mk name.data.dropLast))
          else if (name.data.head?.map Char.isUpper).getD false then
            .struct name
          else
            .unknown

/-- `Type::from_name`. -/
def Ty.from_name (name : String) : Ty :=
  Ty.fromNameAux (name.length + 1) name

mutual
/-- Number of type constructors in a `Ty`, the measure bounding
`is_compatible_with`'s recursion. -/
def Ty.size : Ty → Nat
  | .function params ret => 1 + Ty.sizeList params + ret.size
  | .array elem _ => 1 + elem.size
  | .ref inner => 1 + inner.size
  | .optional inner => 1 + inner.size
  | _ => 1
termination_by structural t => t

/-- Total size of a parameter list, one extra unit per element. -/
def Ty.sizeList : List Ty → Nat
  | [] => 0
  | t :: rest => 1 + t.size + Ty.sizeList rest
termination_by structural l => l
end

mutual
/-- `Type::is_compatible_with`: the assignability/coercion relation, with
the source's arm order (identity, `Any`, `Null`/`Optional`, `Int`/`Float`
widening, `Optional` unwrapping on either side, structural recursion).
Fuelled because the recursion peels either side; every recursive call
strictly shrinks the combined size, so the `size`-sum fuel supplied by
`Ty.is_compatible_with` below is never exhausted. -/
def Ty.isCompatAux : Nat → Ty → Ty → Bool
  | 0, _, _ => false
  | fuel + 1, t₁, t₂ =>
      if Ty.beq t₁ t₂ then true
      else
        match t₁, t₂ with
        | .any, _ => true
        | _, .any => true
        | .null, .optional _ => true
        | .int, .float => true
        | .optional i₁, u => Ty.isCompatAux fuel i₁ u
        | u, .optional i₂ => Ty.isCompatAux fuel u i₂
        | .ref i₁, .ref i₂ => Ty.isCompatAux fuel i₁ i₂
        | .array e₁ _, .array e₂ _ => Ty.isCompatAux fuel e₁ e₂
        | .function params₁ ret₁, .function params₂ ret₂ =>
            if params₁.length ≠ params₂.length then false
            else Ty.isCompatAux fuel ret₁ ret₂ && Ty.compatListAux fuel params₁ params₂
        | .typeParameter name₁ _, .typeParameter name₂ _ => name₁ == name₂
        | _, _ => false

/-- `zip` + `all` over parameter lists (lengths already known equal). -/
def Ty.compatListAux : Nat → List Ty → List Ty → Bool
  | 0, _, _ => false
  | fuel + 1, p₁ :: r₁, p₂ :: r₂ =>
      Ty.isCompatAux fuel p₁ p₂ && Ty.compatListAux fuel r₁ r₂
  | _ + 1, _, _ => true
end

/-- `Type::is_compatible_with`. -/
def Ty.is_compatible_with (self other : Ty) : Bool :=
  Ty.isCompatAux (self.size + other.size) self other

/-- `Type::can_assign_from`: `Ok` when `self.is_compatible_with(other)`,
otherwise a TypeMismatch error naming both types. -/
def Ty.can_assign_from (self other : Ty) : Except SemanticError Unit :=
  if self.is_compatible_with other then .ok ()
  else
    let sd := self.display
    let od := other.display
    .error (SemanticError.new .TypeMismatch
      s!"Tip uyuşmazlığı: '{sd}' tipine '{od}' tipi atanamaz" none)

/-- `Type::check_arithmetic_compatible`: the narrower relation for
`+ - * / %`. -/
def Ty.check_arithmetic_compatible (self other : Ty) (operator : String) :
    Except SemanticError Ty :=
  let failure :=
    let sd := self.display
    let od := other.display
    Except.error (α := Ty) (SemanticError.new .TypeMismatch
      s!"'{operator}' operatörü '{sd}' ve '{od}' tipleri için geçerli değil" none)
  let arithOp := operator = "+" ∨ operator = "-" ∨ operator = "*" ∨ operator = "/"
  match self, other with
  | .int, .int => .ok .int
  | .float, .float => .ok .float
  | .int, .float => .ok .float
  | .float, .int => .ok .float
  | .string, .string => if operator = "+" then .ok .string else failure
  | .any, other => .ok other
  | self, .any => .ok self
  | .typeParameter _ _, other =>
      if [Ty.int, Ty.float, Ty.string].contains other ∧ arithOp then .ok other
      else failure
  | self, .typeParameter _ _ =>
      if [Ty.int, Ty.float, Ty.string].contains self ∧ arithOp then .ok self
      else failure
  | _, _ => failure

/-- `Type::check_comparison_compatible`: `== !=` succeed when the operands
are compatible; ordering operators only between numerics or two strings. -/
def Ty.check_comparison_compatible (self other : Ty) (operator : String) :
    Except SemanticError Ty :=
  if self == Ty.any ∨ other == Ty.any then .ok .bool
  else
    let eqCase : Bool :=
      if operator = "==" ∨ operator = "!=" then self.is_compatible_with other
      else false
    let ordCase : Bool :=
      if operator = "<" ∨ operator = ">" ∨ operator = "<=" ∨ operator = ">=" then
        match self, other with
        | .int, .int | .float, .float | .int, .float | .float, .int
        | .string, .string => true
        | .typeParameter _ _, o => [Ty.int, Ty.float, Ty.string].contains o
        | s, .typeParameter _ _ => [Ty.int, Ty.float, Ty.string].contains s
        | _, _ => false
      else false
    if eqCase ∨ ordCase then .ok .bool
    else
      let sd := self.display
      let od := other.display
      .error (SemanticError.new .TypeMismatch
        s!"'{operator}' karşılaştırma operatörü '{sd}' ve '{od}' tipleri için geçerli değil"
        none)

/-! ## Symbol table (src/semantics/symbol_table.rs)

`SymbolKind::Type` is rendered `TypeKind` (`Type` is reserved in Lean).
A scope's `HashMap<String, Symbol>` is modelled as an association list in
insertion order (keys are unique: `define` checks for the key first);
properties sensitive to Rust's arbitrary hash iteration order are stated
about membership, not order.  The generic/struct/enum registries of
`SymbolTable` are carried by no operation a claim touches and are omitted. -/

/-- `SymbolKind` from symbol_table.rs. -/
inductive SymbolKind where
  | Variable | Function | Parameter | TypeKind | Module | TypeParameter
  deriving DecidableEq, Repr

/-- The `Display` impl of `SymbolKind`. -/
def SymbolKind.display : SymbolKind → String
  | .Variable => "değişken"
  | .Function => "fonksiyon"
  | .Parameter => "parametre"
  | .TypeKind => "tür"
  | .Module => "modül"
  | .TypeParameter => "tip parametresi"

/-- `Symbol` from symbol_table.rs (an inductive because a function symbol
carries its parameter symbols). -/
inductive Symbol where
  | mk (name : String) (symbol_type : Ty) (kind : SymbolKind) (is_mutable : Bool)
       (scope_level : Nat) (line : Nat) (column : Nat)
       (is_used : Bool) (is_initialized : Bool) (parameters : Option (List Symbol))

namespace Symbol

def name : Symbol → String
  | mk n _ _ _ _ _ _ _ _ _ => n

def symbol_type : Symbol → Ty
  | mk _ t _ _ _ _ _ _ _ _ => t

def kind : Symbol → SymbolKind
  | mk _ _ k _ _ _ _ _ _ _ => k

def is_mutable : Symbol → Bool
  | mk _ _ _ m _ _ _ _ _ _ => m

def scope_level : Symbol → Nat
  | mk _ _ _ _ l _ _ _ _ _ => l

def line : Symbol → Nat
  | mk _ _ _ _ _ l _ _ _ _ => l

def column : Symbol → Nat
  | mk _ _ _ _ _ _ c _ _ _ => c

def is_used : Symbol → Bool
  | mk _ _ _ _ _ _ _ u _ _ => u

def is_initialized : Symbol → Bool
  | mk _ _ _ _ _ _ _ _ i _ => i

def parameters : Symbol → Option (List Symbol)
  | mk _ _ _ _ _ _ _ _ _ p => p

/-- Field update `symbol.is_used = true` (and its negation). -/
def set_used : Symbol → Bool → Symbol
  | mk n t k m sl l c _ i p, u => mk n t k m sl l c u i p

/-- Field update `symbol.is_initialized = b`. -/
def set_initialized : Symbol → Bool → Symbol
  | mk n t k m sl l c u _ p, i => mk n t k m sl l c u i p

/-- Field update `symbol.scope_level = lv`. -/
def set_scope_level : Symbol → Nat → Symbol
  | mk n t k m _ l c u i p, lv => mk n t k m lv l c u i p

/-- Field update `symbol.parameters = ps`. -/
def set_parameters : Symbol → Option (List Symbol) → Symbol
  | mk n t k m sl l c u i _, p => mk n t k m sl l c u i p

/-- `Symbol::new`: not used, not initialized, no parameter list. -/
def new (name : String) (symbol_type : Ty) (kind : SymbolKind)
    (is_mutable : Bool) (scope_level line column : Nat) : Symbol :=
  mk name symbol_type kind is_mutable scope_level line column false false none

/-- `Symbol::new_variable`. -/
def new_variable (name : String) (symbol_type : Ty) (is_mutable : Bool)
    (scope_level line column : Nat) (is_initialized : Bool) : Symbol :=
  (new name symbol_type .Variable is_mutable scope_level line column).set_initialized
    is_initialized

/-- `Symbol::new_function`: the symbol's type is
`Function(param types, return type)`; initialized from birth. -/
def new_function (name : String) (return_type : Ty) (parameters : List Symbol)
    (scope_level line column : Nat) : Symbol :=
  let param_types := parameters.map symbol_type
  let func_type := Ty.function param_types return_type
  ((new name func_type .Function false scope_level line column).set_parameters
    (some parameters)).set_initialized true

end Symbol

/-- `ScopeType` from symbol_table.rs. -/
inductive ScopeType where
  | Global | Function | Block | Loop | If | Struct | Impl | Module
  deriving DecidableEq, Repr

/-- `Scope` from symbol_table.rs. -/
structure Scope where
  level : Nat
  symbols : List (String × Symbol)
  scope_type : ScopeType

namespace Scope

/-- `Scope::new`. -/
def new (level : Nat) (scope_type : ScopeType) : Scope :=
  ⟨level, [], scope_type⟩

/-- The Redefinition diagnostic of `Scope::define`: its message carries the
existing symbol's kind and original declaration position, its own position
is the new symbol's. -/
def redefinitionError (name : String) (existing : Symbol) (line column : Nat) :
    SemanticError :=
  let kd := existing.kind.display
  let el := toString existing.line
  let ec := toString existing.column
  SemanticError.with_position .Redefinition
    s!"'{name}' daha önce {kd} olarak tanımlanmış (satır: {el}, sütun: {ec})"
    line column

/-- `Scope::define`: fails with a Redefinition diagnostic, whose message
carries the existing symbol's kind and declaration position, when the name
is already present in this very scope. -/
def define (scope : Scope) (symbol : Symbol) : Except SemanticError Scope :=
  let name := symbol.name
  match scope.symbols.lookup name with
  | some existing =>
      .error (redefinitionError name existing symbol.line symbol.column)
  | none => .ok { scope with symbols := scope.symbols ++ [(name, symbol)] }

/-- `Scope::resolve`. -/
def resolve (scope : Scope) (name : String) : Option Symbol :=
  scope.symbols.lookup name

end Scope

/-- `SymbolTable` from symbol_table.rs: the scope stack (bottom first, the
current scope last) plus the current function/struct bookkeeping. -/
structure SymbolTable where
  scopes : List Scope
  current_function : Option String
  current_struct : Option String

namespace SymbolTable

/-- `SymbolTable::enter_scope`: push a fresh scope whose level is the
stack size; for Function/Struct scopes the source then scans the
just-pushed (still empty) scope for a function/type symbol. -/
def enter_scope (t : SymbolTable) (scope_type : ScopeType) : SymbolTable :=
  let level := t.scopes.length
  let t := { t with scopes := t.scopes ++ [Scope.new level scope_type] }
  if scope_type = .Function then
    match t.scopes.getLast? with
    | some func_scope =>
        match func_scope.symbols.find? (fun p => p.2.kind = SymbolKind.Function) with
        | some (n, _) => { t with current_function := some n }
        | none => t
    | none => t
  else if scope_type = .Struct then
    match t.scopes.getLast? with
    | some struct_scope =>
        match struct_scope.symbols.find? (fun p => p.2.kind = SymbolKind.TypeKind) with
        | some (n, _) => { t with current_struct := some n }
        | none => t
    | none => t
  else t

/-- `SymbolTable::new`: construct, then enter the Global scope. -/
def new : SymbolTable :=
  enter_scope ⟨[], none, none⟩ .Global

/-- `SymbolTable::exit_scope`: pop the top scope — unless it is the last
remaining one, in which case nothing is popped and `None` is returned
(the source prints a recoverable warning). -/
def exit_scope (t : SymbolTable) : Option Scope × SymbolTable :=
  if t.scopes.length > 1 then
    let t₁ :=
      match t.scopes.getLast? with
      | some scope =>
          if scope.scope_type = ScopeType.Function then { t with current_function := none }
          else if scope.scope_type = ScopeType.Struct then { t with current_struct := none }
          else t
      | none => t
    (t₁.scopes.getLast?, { t₁ with scopes := t₁.scopes.dropLast })
  else
    (none, t)

/-- `SymbolTable::current_level`. -/
def current_level (t : SymbolTable) : Nat :=
  t.scopes.length - 1

/-- `SymbolTable::define_symbol`: insert into the current (innermost)
scope only. -/
def define_symbol (t : SymbolTable) (symbol : Symbol) : Except SemanticError SymbolTable :=
  match t.scopes.getLast? with
  | some scope =>
      match scope.define symbol with
      | .ok scope' => .ok { t with scopes := t.scopes.dropLast ++ [scope'] }
      | .error e => .error e
  | none => .error (SemanticError.new .Other "Kapsam bulunamadı" none)

/-- `SymbolTable::define_variable`. -/
def define_variable (t : SymbolTable) (name : String) (var_type : Ty)
    (is_mutable is_initialized : Bool) (line column : Nat) :
    Except SemanticError SymbolTable :=
  t.define_symbol (Symbol.new_variable name var_type is_mutable t.current_level
    line column is_initialized)

/-- `SymbolTable::define_function`. -/
def define_function (t : SymbolTable) (name : String) (return_type : Ty)
    (parameters : List Symbol) (line column : Nat) : Except SemanticError SymbolTable :=
  t.define_symbol (Symbol.new_function name return_type parameters t.current_level
    line column)

/-- Innermost-to-outermost search over a reversed scope stack. -/
def resolveAux : List Scope → String → Option Symbol
  | [], _ => none
  | scope :: rest, name =>
      match scope.resolve name with
      | some symbol => some symbol
      | none => resolveAux rest name

/-- `SymbolTable::resolve`: walk scopes from innermost to outermost and
return the first match; UndefinedVariable when no scope has the name. -/
def resolve (t : SymbolTable) (name : String) : Except SemanticError Symbol :=
  match resolveAux t.scopes.reverse name with
  | some symbol => .ok symbol
  | none => .error (SemanticError.new .UndefinedVariable s!"'{name}' tanımlı değil" none)

/-- Apply `f` to the entry for `name` (keys are unique). -/
def updateAssoc : List (String × Symbol) → String → (Symbol → Symbol) →
    List (String × Symbol)
  | [], _, _ => []
  | (k, v) :: rest, name, f =>
      if k = name then (k, f v) :: rest else (k, v) :: updateAssoc rest name f

/-- Mutate the first symbol found by innermost-to-outermost search
(operating on a reversed scope stack). -/
def markFirst : List Scope → String → (Symbol → Symbol) → Option (List Scope)
  | [], _, _ => none
  | scope :: rest, name, f =>
      match scope.resolve name with
      | some _ => some ({ scope with symbols := updateAssoc scope.symbols name f } :: rest)
      | none => (markFirst rest name f).map (scope :: ·)

/-- `SymbolTable::mark_used`. -/
def mark_used (t : SymbolTable) (name : String) : Except SemanticError SymbolTable :=
  match markFirst t.scopes.reverse name (fun s => s.set_used true) with
  | some revScopes => .ok { t with scopes := revScopes.reverse }
  | none => .error (SemanticError.new .UndefinedVariable
      s!"'{name}' tanımlı değil, kullanılamaz" none)

/-- `SymbolTable::mark_initialized`. -/
def mark_initialized (t : SymbolTable) (name : String) :
    Except SemanticError SymbolTable :=
  match markFirst t.scopes.reverse name (fun s => s.set_initialized true) with
  | some revScopes => .ok { t with scopes := revScopes.reverse }
  | none => .error (SemanticError.new .UndefinedVariable
      s!"'{name}' tanımlı değil, değer atanamaz" none)

/-- `SymbolTable::resolve_type`: resolve, then require a type symbol. -/
def resolve_type (t : SymbolTable) (name : String) : Except SemanticError Symbol :=
  match t.resolve name with
  | .ok symbol =>
      match symbol.kind with
      | .TypeKind => .ok symbol
      | _ =>
          let kd := symbol.kind.display
          .error (SemanticError.new .Other s!"'{name}' bir tür değil, {kd} türünde" none)
  | .error e => .error e

/-- `SymbolTable::get_unused_symbols`: every never-used symbol in every
scope still on the stack — except that every `Function` symbol is
filtered out, whatever its name. -/
def get_unused_symbols (t : SymbolTable) : List Symbol :=
  t.scopes.flatMap fun scope =>
    (scope.symbols.map Prod.snd).filter fun symbol =>
      ¬ symbol.is_used ∧ symbol.kind ≠ .Function

/-- `SymbolTable::get_uninitialized_symbols`. -/
def get_uninitialized_symbols (t : SymbolTable) : List Symbol :=
  t.scopes.flatMap fun scope =>
    (scope.symbols.map Prod.snd).filter fun symbol =>
      ¬ symbol.is_initialized ∧ symbol.kind = .Variable

end SymbolTable

/-! ## Semantic analyzer (src/semantics/analyzer.rs)

The visitor is embedded with an explicit fuel bounding the recursion depth
(`none` = fuel exhausted, or a Rust `expect` panic on a malformed node).
The analyzer state carries the four fields the visitor reads or writes;
the optimization-hint fields (`constant_expressions`, `loop_infos`,
`small_functions`, `warnings`) are never touched by any embedded function
and are omitted.  The source's dispatch arms for `BreakStmt`/`ContinueStmt`
refer to AST constructors that do not exist in ast.rs and are therefore
unrepresentable here. -/

/-- Debug rendering of an `AstNodeType`, as Rust's `{:?}` prints it
(`TypeAnn` prints as the source's `TypeAnnotation`). -/
def AstNodeType.debugName : AstNodeType → String
  | .Program => "Program"
  | .BinaryExpr => "BinaryExpr" | .UnaryExpr => "UnaryExpr"
  | .LiteralExpr => "LiteralExpr" | .IdentifierExpr => "IdentifierExpr"
  | .GroupExpr => "GroupExpr" | .CallExpr => "CallExpr"
  | .IndexExpr => "IndexExpr" | .MemberExpr => "MemberExpr"
  | .ExprStmt => "ExprStmt" | .BlockStmt => "BlockStmt"
  | .IfStmt => "IfStmt" | .WhileStmt => "WhileStmt"
  | .ForStmt => "ForStmt" | .ReturnStmt => "ReturnStmt"
  | .VarDecl => "VarDecl" | .FuncDecl => "FuncDecl"
  | .StructDecl => "StructDecl" | .ImplDecl => "ImplDecl"
  | .ModDecl => "ModDecl" | .ParamDecl => "ParamDecl"
  | .TypeAnn => "TypeAnnotation"

/-- `node.token.as_ref().map_or(0, |t| t.line)`. -/
def AstNode.tokLine (n : AstNode) : Nat :=
  (n.token.map Token.line).getD 0

/-- `node.token.as_ref().map_or(0, |t| t.column)`. -/
def AstNode.tokCol (n : AstNode) : Nat :=
  (n.token.map Token.column).getD 0

/-- The mutable state of `SemanticAnalyzer`. -/
structure AState where
  symbol_table : SymbolTable
  current_function_return_type : Option Ty
  errors : List SemanticError
  in_loop : Bool

namespace SemanticAnalyzer

/-- `SemanticAnalyzer::new`. -/
def new : AState :=
  ⟨SymbolTable.new, none, [], false⟩

/-- `SemanticAnalyzer::add_error`. -/
def add_error (a : AState) (error : SemanticError) : AState :=
  { a with errors := a.errors ++ [error] }

/-- `SemanticAnalyzer::add_warning` (the source also pushes warnings onto
`self.errors`). -/
def add_warning (a : AState) (warning : SemanticError) : AState :=
  { a with errors := a.errors ++ [warning] }

/-- The recurring `if let Err(err) = self.symbol_table... { self.add_error(err) }`
pattern: commit a table update or record the diagnostic. -/
def applyTable (a : AState) (r : Except SemanticError SymbolTable) : AState :=
  match r with
  | .ok table => { a with symbol_table := table }
  | .error err => add_error a err

/-- `self.symbol_table.enter_scope(..)`. -/
def enterScope (a : AState) (scope_type : ScopeType) : AState :=
  { a with symbol_table := a.symbol_table.enter_scope scope_type }

/-- `self.symbol_table.exit_scope()` with the popped scope discarded, as
every visitor call site does. -/
def exitScope (a : AState) : AState :=
  { a with symbol_table := (a.symbol_table.exit_scope).2 }

/-- `value.parse::<i32>().is_ok()` (sign and 32-bit range). -/
def parsesAsI32 (value : String) : Bool :=
  match value.toInt? with
  | some n => -2147483648 ≤ n ∧ n ≤ 2147483647
  | none => false

/-- Approximation of `value.parse::<f64>().is_ok()` on the token shapes the
lexer can produce (sign, digits, one optional decimal point).  This branch
of `visit_literal` is unreachable from parser-built trees, whose literal
nodes always carry their token. -/
def parsesAsF64 (value : String) : Bool :=
  let core := if value.startsWith "-" ∨ value.startsWith "+" then value.drop 1 else value
  match core.splitOn "." with
  | [intPart] => intPart.length > 0 ∧ intPart.data.all Char.isDigit
  | [intPart, fracPart] =>
      (intPart ++ fracPart).length > 0 ∧ intPart.data.all Char.isDigit ∧
        fracPart.data.all Char.isDigit
  | _ => false

/-- `SemanticAnalyzer::visit_literal`. -/
def visitLiteral (node : AstNode) (a : AState) : Option (Ty × AState) :=
  match node.token with
  | some token =>
      match token.token_type with
      | .IntLiteral => some (.int, a)
      | .FloatLiteral => some (.float, a)
      | .StringLiteral => some (.string, a)
      | .BoolLiteral => some (.bool, a)
      | _ =>
          let tn := token.token_type.debugName
          some (.error, add_error a (SemanticError.new .Other
            s!"Desteklenmeyen literal tipi: {tn}" (some token)))
  | none => do
      let value ← node.value
      if parsesAsI32 value then some (.int, a)
      else if parsesAsF64 value then some (.float, a)
      else if value = "true" ∨ value = "false" then some (.bool, a)
      else if value.startsWith "\"" ∧ value.endsWith "\"" then some (.string, a)
      else some (.error, add_error a (SemanticError.new .Other
        s!"Bilinmeyen literal: {value}" node.token))

/-- `SemanticAnalyzer::visit_identifier`: resolve, mark used, and flag a
read of an uninitialized variable. -/
def visitIdentifier (node : AstNode) (a : AState) : Option (Ty × AState) := do
  let name ← node.value
  match a.symbol_table.resolve name with
  | .ok symbol =>
      let a := applyTable a (a.symbol_table.mark_used name)
      let a :=
        if symbol.kind = .Variable ∧ symbol.is_initialized = false then
          add_error a (SemanticError.new .Other
            s!"'{name}' değişkeni kullanımdan önce başlatılmamış" node.token)
        else a
      some (symbol.symbol_type, a)
  | .error err => some (.error, add_error a err)

/-- `SemanticAnalyzer::visit_type_annotation`: map the annotation text to a
`Ty`; a struct reference must resolve to a type symbol. -/
def visitTypeAnnotation (node : AstNode) (a : AState) : Option (Ty × AState) := do
  let type_name ← node.value
  let result_type := Ty.from_name type_name
  match result_type with
  | .struct struct_name =>
      match a.symbol_table.resolve_type struct_name with
      | .ok _ => some (result_type, a)
      | .error _ => some (.error, add_error a (SemanticError.new .Other
          s!"'{struct_name}' tipi tanımlanmamış" node.token))
  | _ => some (result_type, a)

/-- `"+=" → "+"` and so on, from the compound-assignment branch of
`visit_binary_expr`. -/
def compoundOp (operator : String) : String :=
  if operator = "+=" then "+"
  else if operator = "-=" then "-"
  else if operator = "*=" then "*"
  else if operator = "/=" then "/"
  else "?"

/-- Per-position assignability check of `visit_call_expr` (index only used
in the message; the child node supplies the error's token). -/
def callArgChecks : List ((Ty × Ty) × AstNode) → Nat → AState → AState
  | [], _, a => a
  | ((arg_type, param_type), child) :: rest, i, a =>
      let a :=
        if arg_type != Ty.error ∧ param_type != Ty.error then
          match param_type.can_assign_from arg_type with
          | .ok _ => a
          | .error err =>
              let iS := toString (i + 1)
              let m := err.message
              add_error a (SemanticError.new .TypeMismatch
                s!"Argüman {iS} için tip uyuşmazlığı: {m}" child.token)
        else a
      callArgChecks rest (i + 1) a

mutual

/-- `SemanticAnalyzer::visit_node`: dispatch on the node category. -/
def visitNode : Nat → AstNode → AState → Option (Ty × AState)
  | 0, _, _ => none
  | fuel + 1, node, a =>
      match node.node_type with
      | .Program => visitProgram fuel node a
      | .VarDecl => visitVarDeclaration fuel node a
      | .FuncDecl => visitFunctionDeclaration fuel node a
      | .ParamDecl => visitParamDeclaration fuel node a
      | .TypeAnn => visitTypeAnnotation node a
      | .BlockStmt => visitBlock fuel node a
      | .IfStmt => visitIfStmt fuel node a
      | .WhileStmt => visitWhileStmt fuel node a
      | .ForStmt => visitForStmt fuel node a
      | .ReturnStmt => visitReturnStmt fuel node a
      | .ExprStmt => visitExprStmt fuel node a
      | .BinaryExpr => visitBinaryExpr fuel node a
      | .UnaryExpr => visitUnaryExpr fuel node a
      | .LiteralExpr => visitLiteral node a
      | .IdentifierExpr => visitIdentifier node a
      | .CallExpr => visitCallExpr fuel node a
      | .GroupExpr => visitGroupExpr fuel node a
      | .StructDecl => visitStructDeclaration fuel node a
      | .ImplDecl => visitImplDeclaration fuel node a
      | .MemberExpr => visitMemberExpr fuel node a
      | .IndexExpr => visitIndexExpr fuel node a
      | .ModDecl => visitModuleDeclaration fuel node a

/-- `self.visit_node(child)` over a child list, types discarded. -/
def visitEach : Nat → List AstNode → AState → Option AState
  | 0, _, _ => none
  | _ + 1, [], a => some a
  | fuel + 1, child :: rest, a => do
      let (_, a) ← visitNode fuel child a
      visitEach fuel rest a

/-- `SemanticAnalyzer::visit_program`: visit every child, then require a
Global `main` function symbol and mark it used. -/
def visitProgram : Nat → AstNode → AState → Option (Ty × AState)
  | 0, _, _ => none
  | fuel + 1, node, a => do
      let a ← visitEach fuel node.children a
      match a.symbol_table.resolve "main" with
      | .ok symbol =>
          let a :=
            if symbol.kind ≠ .Function then
              add_error a (SemanticError.new .Other "'main' bir fonksiyon olmalıdır" none)
            else a
          let a := applyTable a (a.symbol_table.mark_used "main")
          some (.void, a)
      | .error _ =>
          some (.void, add_error a (SemanticError.new .Other
            "'main' fonksiyonu tanımlanmamış" none))

/-- The child loop of `visit_var_declaration`: a type-annotation child sets
the declared type, any other child is visited as the initializer. -/
def varDeclChildren : Nat → List AstNode → Ty × Ty × Bool → AState →
    Option ((Ty × Ty × Bool) × AState)
  | 0, _, _, _ => none
  | _ + 1, [], acc, a => some (acc, a)
  | fuel + 1, child :: rest, (var_type, init_type, is_init), a =>
      if child.node_type = .TypeAnn then do
        let (t, a) ← visitNode fuel child a
        varDeclChildren fuel rest (t, init_type, is_init) a
      else do
        let (t, a) ← visitNode fuel child a
        varDeclChildren fuel rest (var_type, t, true) a

/-- `SemanticAnalyzer::visit_var_declaration`: infer the type from the
initializer when unannotated, check the declared type against the
initializer with `can_assign_from`, then register the variable in the
current scope. -/
def visitVarDeclaration : Nat → AstNode → AState → Option (Ty × AState)
  | 0, _, _ => none
  | fuel + 1, node, a => do
      let var_name ← node.value
      let is_mutable := node.metadata == some "mutable"
      let ((var_type, init_value_type, is_initialized), a) ←
        varDeclChildren fuel node.children (.unknown, .unknown, false) a
      let var_type :=
        if var_type == Ty.unknown ∧ init_value_type != Ty.unknown ∧
            init_value_type != Ty.error then
          init_value_type
        else var_type
      let step : Ty × AState :=
        if var_type == Ty.unknown then
          (.error, add_error a (SemanticError.new .Other
            s!"'{var_name}' değişkeninin tipi belirtilmemiş ve çıkarsanamadı" node.token))
        else (var_type, a)
      let var_type := step.1
      let a := step.2
      let a :=
        if is_initialized ∧ init_value_type != Ty.error ∧ var_type != Ty.error then
          match var_type.can_assign_from init_value_type with
          | .ok _ => a
          | .error err =>
              let m := err.message
              add_error a (SemanticError.with_position .TypeMismatch
                s!"'{var_name}' değişkeni için tip uyuşmazlığı: {m}"
                node.tokLine node.tokCol)
        else a
      let a := applyTable a (a.symbol_table.define_variable var_name var_type
        is_mutable is_initialized node.tokLine node.tokCol)
      some (var_type, a)

/-- Inner loop of the `ParamDecl` arm of `visit_function_declaration`:
visit the first type-annotation child directly. -/
def funcDeclParamType : List AstNode → AState → Option (Option Ty × AState)
  | [], a => some (none, a)
  | param_child :: rest, a =>
      if param_child.node_type = .TypeAnn then do
        let (t, a) ← visitTypeAnnotation param_child a
        some (some t, a)
      else funcDeclParamType rest a

/-- The child loop of `visit_function_declaration`: collect parameter
symbols, the annotated return type, and the body block. -/
def funcDeclChildren : Nat → List AstNode → List Symbol × Ty × Option AstNode →
    AState → Option ((List Symbol × Ty × Option AstNode) × AState)
  | 0, _, _, _ => none
  | _ + 1, [], acc, a => some (acc, a)
  | fuel + 1, child :: rest, (params, ret, body), a =>
      match child.node_type with
      | .ParamDecl => do
          let param_name ← child.value
          let (pt, a) ← funcDeclParamType child.children a
          let param_type := pt.getD Ty.unknown
          let step : Ty × AState :=
            if param_type == Ty.unknown then
              (.error, add_error a (SemanticError.new .Other
                s!"'{param_name}' parametresinin tipi belirtilmemiş" child.token))
            else (param_type, a)
          let param_symbol := Symbol.new param_name step.1 .Parameter false 0
            child.tokLine child.tokCol
          funcDeclChildren fuel rest (params ++ [param_symbol], ret, body) step.2
      | .TypeAnn => do
          let (t, a) ← visitNode fuel child a
          funcDeclChildren fuel rest (params, t, body) a
      | .BlockStmt => funcDeclChildren fuel rest (params, ret, some child) a
      | _ =>
          let dn := child.node_type.debugName
          funcDeclChildren fuel rest (params, ret, body)
            (add_error a (SemanticError.new .Other
              s!"Beklenmeyen düğüm tipi: {dn}" child.token))

/-- The parameter-registration loop inside `visit_function_declaration`'s
body visit: each parameter copy is re-levelled and marked initialized. -/
def defineParams : List Symbol → AState → AState
  | [], a => a
  | param :: rest, a =>
      let scope_level := a.symbol_table.current_level
      let param_copy := (param.set_scope_level scope_level).set_initialized true
      defineParams rest (applyTable a (a.symbol_table.define_symbol param_copy))

/-- `SemanticAnalyzer::visit_function_declaration`: the function symbol is
registered before the body is visited (inside a fresh Function scope, with
the parameters and the saved/restored return-type slot). -/
def visitFunctionDeclaration : Nat → AstNode → AState → Option (Ty × AState)
  | 0, _, _ => none
  | fuel + 1, node, a => do
      let func_name ← node.value
      let ((param_symbols, return_type, body_node), a) ←
        funcDeclChildren fuel node.children ([], Ty.void, none) a
      let a := applyTable a (a.symbol_table.define_function func_name return_type
        param_symbols node.tokLine node.tokCol)
      let a ←
        match body_node with
        | some body => do
            let a := enterScope a .Function
            let a := defineParams param_symbols a
            let prev_return_type := a.current_function_return_type
            let a := { a with current_function_return_type := some return_type }
            let (_, a) ← visitNode fuel body a
            let a := { a with current_function_return_type := prev_return_type }
            some (exitScope a)
        | none => some a
      some (Ty.function (param_symbols.map Symbol.symbol_type) return_type, a)

/-- The annotation search of `visit_param_declaration` (via `visit_node`,
stopping at the first type-annotation child). -/
def paramDeclFindType : Nat → List AstNode → AState → Option (Option Ty × AState)
  | 0, _, _ => none
  | _ + 1, [], a => some (none, a)
  | fuel + 1, child :: rest, a =>
      if child.node_type = .TypeAnn then do
        let (t, a) ← visitNode fuel child a
        some (some t, a)
      else paramDeclFindType fuel rest a

/-- `SemanticAnalyzer::visit_param_declaration`. -/
def visitParamDeclaration : Nat → AstNode → AState → Option (Ty × AState)
  | 0, _, _ => none
  | fuel + 1, node, a => do
      let param_name ← node.value
      let (pt, a) ← paramDeclFindType fuel node.children a
      let param_type := pt.getD Ty.unknown
      if param_type == Ty.unknown then
        some (.error, add_error a (SemanticError.new .Other
          s!"'{param_name}' parametresinin tipi belirtilmemiş" node.token))
      else some (param_type, a)

/-- The statement loop of `visit_block`, tracking the last visited type. -/
def visitChildrenLast : Nat → List AstNode → Ty → AState → Option (Ty × AState)
  | 0, _, _, _ => none
  | _ + 1, [], last_type, a => some (last_type, a)
  | fuel + 1, child :: rest, _, a => do
      let (t, a) ← visitNode fuel child a
      visitChildrenLast fuel rest t a

/-- `SemanticAnalyzer::visit_block`: a fresh Block scope around the
children, returning the last statement's type. -/
def visitBlock : Nat → AstNode → AState → Option (Ty × AState)
  | 0, _, _ => none
  | fuel + 1, node, a => do
      let a := enterScope a .Block
      let (last_type, a) ← visitChildrenLast fuel node.children .void a
      some (last_type, exitScope a)

/-- `SemanticAnalyzer::visit_if_stmt`: boolean condition, each branch in
its own If scope. -/
def visitIfStmt : Nat → AstNode → AState → Option (Ty × AState)
  | 0, _, _ => none
  | fuel + 1, node, a =>
      match node.children with
      | condition :: then_branch :: restChildren => do
          let (condition_type, a) ← visitNode fuel condition a
          let a :=
            if condition_type != Ty.bool ∧ condition_type != Ty.error then
              let cd := condition_type.display
              add_error a (SemanticError.new .TypeMismatch
                s!"If koşulu boolean tipinde olmalı, bulunan: {cd}" node.token)
            else a
          let a := enterScope a .If
          let (_, a) ← visitNode fuel then_branch a
          let a := exitScope a
          let a ←
            match restChildren with
            | else_branch :: _ => do
                let a := enterScope a .If
                let (_, a) ← visitNode fuel else_branch a
                some (exitScope a)
            | [] => some a
          some (.void, a)
      | _ =>
          some (.error, add_error a (SemanticError.new .Other
            "If ifadesi eksik" node.token))

/-- `SemanticAnalyzer::visit_while_stmt`: boolean condition, body in a
Loop scope with `in_loop` saved and restored. -/
def visitWhileStmt : Nat → AstNode → AState → Option (Ty × AState)
  | 0, _, _ => none
  | fuel + 1, node, a =>
      match node.children with
      | condition :: body :: _ => do
          let (condition_type, a) ← visitNode fuel condition a
          let a :=
            if condition_type != Ty.bool ∧ condition_type != Ty.error then
              let cd := condition_type.display
              add_error a (SemanticError.new .TypeMismatch
                s!"While koşulu boolean tipinde olmalı, bulunan: {cd}" node.token)
            else a
          let prev_in_loop := a.in_loop
          let a := { a with in_loop := true }
          let a := enterScope a .Loop
          let (_, a) ← visitNode fuel body a
          let a := exitScope a
          some (.void, { a with in_loop := prev_in_loop })
      | _ =>
          some (.error, add_error a (SemanticError.new .Other
            "While ifadesi eksik" node.token))

/-- `SemanticAnalyzer::visit_for_stmt`: the Loop scope holds the iteration
variable, typed by the iterated value's element type. -/
def visitForStmt : Nat → AstNode → AState → Option (Ty × AState)
  | 0, _, _ => none
  | fuel + 1, node, a =>
      match node.children with
      | iterator_var :: rangeChild :: body :: _ => do
          let a := enterScope a .Loop
          let var_name ← iterator_var.value
          let (range_type, a) ← visitNode fuel rangeChild a
          let step : Ty × AState :=
            match range_type with
            | .array elem_type _ => (elem_type, a)
            | .string => (.string, a)
            | _ =>
                if range_type != Ty.error then
                  let rd := range_type.display
                  (.error, add_error a (SemanticError.new .TypeMismatch
                    s!"For döngüsünün '{rd}'  tipi üzerinde döngülenemez" rangeChild.token))
                else (.error, a)
          let a := applyTable step.2 (step.2.symbol_table.define_variable var_name
            step.1 false true iterator_var.tokLine iterator_var.tokCol)
          let prev_in_loop := a.in_loop
          let a := { a with in_loop := true }
          let (_, a) ← visitNode fuel body a
          let a := { a with in_loop := prev_in_loop }
          some (.void, exitScope a)
      | _ =>
          some (.error, add_error a (SemanticError.new .Other
            "For ifadesi eksik" node.token))

/-- `SemanticAnalyzer::visit_return_stmt`: InvalidReturn outside a
function or when the returned type is not assignable to the declared
return type. -/
def visitReturnStmt : Nat → AstNode → AState → Option (Ty × AState)
  | 0, _, _ => none
  | fuel + 1, node, a => do
      let (return_value_type, a) ←
        match node.children with
        | child :: _ => visitNode fuel child a
        | [] => some (Ty.void, a)
      match a.current_function_return_type with
      | some expected_type =>
          if expected_type != Ty.error ∧ return_value_type != Ty.error then
            match expected_type.can_assign_from return_value_type with
            | .ok _ => some (.void, a)
            | .error err =>
                let m := err.message
                some (.void, add_error a (SemanticError.new .InvalidReturn
                  s!"Dönüş tipi uyuşmazlığı: {m}" node.token))
          else some (.void, a)
      | none =>
          some (.void, add_error a (SemanticError.new .InvalidReturn
            "Return ifadesi yalnızca fonksiyon içinde kullanılabilir" node.token))

/-- `SemanticAnalyzer::visit_expr_stmt`. -/
def visitExprStmt : Nat → AstNode → AState → Option (Ty × AState)
  | 0, _, _ => none
  | fuel + 1, node, a =>
      match node.children with
      | [] => some (.void, a)
      | child :: _ => visitNode fuel child a

/-- `SemanticAnalyzer::visit_binary_expr`: both operands are visited
first; `Error` on either side suppresses the check (poison).  In the
assignment arm the target must resolve and be mutable, and the target is
marked initialized on the error path exactly as on the success path. -/
def visitBinaryExpr : Nat → AstNode → AState → Option (Ty × AState)
  | 0, _, _ => none
  | fuel + 1, node, a =>
      match node.children with
      | left :: right :: _ => do
          let (left_type, a) ← visitNode fuel left a
          let (right_type, a) ← visitNode fuel right a
          if left_type == Ty.error ∨ right_type == Ty.error then some (.error, a)
          else do
            let operator ← node.value
            if operator = "+" ∨ operator = "-" ∨ operator = "*" ∨ operator = "/" ∨
                operator = "%" then
              match left_type.check_arithmetic_compatible right_type operator with
              | .ok result_type => some (result_type, a)
              | .error err => some (.error, add_error a err)
            else if operator = "==" ∨ operator = "!=" ∨ operator = "<" ∨
                operator = ">" ∨ operator = "<=" ∨ operator = ">=" then
              match left_type.check_comparison_compatible right_type operator with
              | .ok _ => some (.bool, a)
              | .error err => some (.error, add_error a err)
            else if operator = "&&" ∨ operator = "||" then
              if left_type != Ty.bool ∨ right_type != Ty.bool then
                let ld := left_type.display
                let rd := right_type.display
                some (.error, add_error a (SemanticError.new .TypeMismatch
                  s!"Mantıksal operatör '{operator}' için boolean değerler gerekli, bulunan: {ld} ve {rd}"
                  node.token))
              else some (.bool, a)
            else if operator = "=" ∨ operator = "+=" ∨ operator = "-=" ∨
                operator = "*=" ∨ operator = "/=" then
              if left.node_type = .IdentifierExpr then do
                let var_name ← left.value
                match a.symbol_table.resolve var_name with
                | .ok symbol =>
                    let a :=
                      if symbol.is_mutable = false then
                        add_error a (SemanticError.new .Other
                          s!"'{var_name}' değiştirilemez (mut değil)" node.token)
                      else a
                    let a :=
                      if operator = "=" then
                        match symbol.symbol_type.can_assign_from right_type with
                        | .ok _ => a
                        | .error err =>
                            let m := err.message
                            add_error a (SemanticError.new .TypeMismatch
                              s!"Tip uyuşmazlığı: {m}" node.token)
                      else
                        match symbol.symbol_type.check_arithmetic_compatible right_type
                          (compoundOp operator) with
                        | .ok _ => a
                        | .error err =>
                            let m := err.message
                            add_error a (SemanticError.new .TypeMismatch
                              s!"Bileşik atama için tip uyuşmazlığı: {m}" node.token)
                    let a := applyTable a (a.symbol_table.mark_initialized var_name)
                    some (symbol.symbol_type, a)
                | .error err => some (.error, add_error a err)
              else if left.node_type = .MemberExpr then some (.error, a)
              else if left.node_type = .IndexExpr then some (.error, a)
              else
                some (.error, add_error a (SemanticError.new .Other
                  "Sol taraf atama için geçerli bir hedef değil" node.token))
            else
              some (.error, add_error a (SemanticError.new .Other
                s!"Bilinmeyen operatör: {operator}" node.token))
      | _ =>
          some (.error, add_error a (SemanticError.new .Other
            "Eksik ikili ifade" node.token))

/-- `SemanticAnalyzer::visit_unary_expr`. -/
def visitUnaryExpr : Nat → AstNode → AState → Option (Ty × AState)
  | 0, _, _ => none
  | fuel + 1, node, a =>
      match node.children with
      | child :: _ => do
          let (expr_type, a) ← visitNode fuel child a
          if expr_type == Ty.error then some (.error, a)
          else do
            let operator ← node.value
            if operator = "-" then
              if expr_type == Ty.int ∨ expr_type == Ty.float then some (expr_type, a)
              else
                let ed := expr_type.display
                some (.error, add_error a (SemanticError.new .TypeMismatch
                  s!"Operatör '{operator}' tip {ed} için geçerli değil" node.token))
            else if operator = "!" then
              if expr_type == Ty.bool then some (.bool, a)
              else
                let ed := expr_type.display
                some (.error, add_error a (SemanticError.new .TypeMismatch
                  s!"Operatör '{operator}' tip {ed} için geçerli değil, bool bekleniyor"
                  node.token))
            else
              some (.error, add_error a (SemanticError.new .Other
                s!"Bilinmeyen tekli operatör: {operator}" node.token))
      | [] =>
          some (.error, add_error a (SemanticError.new .Other
            "Eksik tekli ifade" node.token))

/-- Argument-type collection loop of `visit_call_expr`. -/
def visitCallArgs : Nat → List AstNode → List Ty → AState → Option (List Ty × AState)
  | 0, _, _, _ => none
  | _ + 1, [], acc, a => some (acc, a)
  | fuel + 1, child :: rest, acc, a => do
      let (t, a) ← visitNode fuel child a
      visitCallArgs fuel rest (acc ++ [t]) a

/-- `SemanticAnalyzer::visit_call_expr`: the callee must resolve to a
Function-typed symbol; arity mismatch short-circuits before per-position
assignability checks. -/
def visitCallExpr : Nat → AstNode → AState → Option (Ty × AState)
  | 0, _, _ => none
  | fuel + 1, node, a => do
      let func_name ← node.value
      match a.symbol_table.resolve func_name with
      | .ok symbol =>
          let a := applyTable a (a.symbol_table.mark_used func_name)
          match symbol.symbol_type with
          | .function param_types return_type => do
              let (arg_types, a) ← visitCallArgs fuel node.children [] a
              if arg_types.length ≠ param_types.length then
                let np := toString param_types.length
                let na := toString arg_types.length
                some (return_type, add_error a (SemanticError.new .Other
                  s!"Fonksiyon '{func_name}' {np} argüman alır, {na} verilmiş" node.token))
              else
                some (return_type,
                  callArgChecks ((arg_types.zip param_types).zip node.children) 0 a)
          | _ =>
              some (.error, add_error a (SemanticError.new .Other
                s!"'{func_name}' bir fonksiyon değil" node.token))
      | .error err => some (.error, add_error a err)

/-- `SemanticAnalyzer::visit_group_expr`. -/
def visitGroupExpr : Nat → AstNode → AState → Option (Ty × AState)
  | 0, _, _ => none
  | fuel + 1, node, a =>
      match node.children with
      | child :: _ => visitNode fuel child a
      | [] =>
          some (.error, add_error a (SemanticError.new .Other
            "Boş grup ifadesi" node.token))

/-- Field loop of `visit_struct_declaration`. -/
def structFieldsVisit : Nat → List AstNode → AState → Option AState
  | 0, _, _ => none
  | _ + 1, [], a => some a
  | fuel + 1, field :: rest, a =>
      if field.node_type = .VarDecl then do
        let (_, a) ← visitNode fuel field a
        structFieldsVisit fuel rest a
      else
        let dn := field.node_type.debugName
        structFieldsVisit fuel rest (add_error a (SemanticError.new .Other
          s!"Struct içinde beklenmeyen düğüm tipi: {dn}" field.token))

/-- `SemanticAnalyzer::visit_struct_declaration`: the type symbol is
registered first (failure returns `Error` at once), the fields are then
visited inside a Struct scope. -/
def visitStructDeclaration : Nat → AstNode → AState → Option (Ty × AState)
  | 0, _, _ => none
  | fuel + 1, node, a => do
      let struct_name ← node.value
      let struct_type := Ty.struct struct_name
      let struct_symbol := Symbol.new struct_name struct_type .TypeKind false
        a.symbol_table.current_level node.tokLine node.tokCol
      match a.symbol_table.define_symbol struct_symbol with
      | .error err => some (.error, add_error a err)
      | .ok table =>
          let a := { a with symbol_table := table }
          let a := enterScope a .Struct
          let a ← structFieldsVisit fuel node.children a
          some (struct_type, exitScope a)

/-- Method loop of `visit_impl_declaration`. -/
def implMethodsVisit : Nat → List AstNode → AState → Option AState
  | 0, _, _ => none
  | _ + 1, [], a => some a
  | fuel + 1, method :: rest, a =>
      if method.node_type = .FuncDecl then do
        let (_, a) ← visitNode fuel method a
        implMethodsVisit fuel rest a
      else
        let dn := method.node_type.debugName
        implMethodsVisit fuel rest (add_error a (SemanticError.new .Other
          s!"Impl içinde beklenmeyen düğüm tipi: {dn}" method.token))

/-- `SemanticAnalyzer::visit_impl_declaration`: the named struct must
already be a known type symbol. -/
def visitImplDeclaration : Nat → AstNode → AState → Option (Ty × AState)
  | 0, _, _ => none
  | fuel + 1, node, a => do
      let struct_name ← node.value
      match a.symbol_table.resolve_type struct_name with
      | .ok _ => do
          let a := enterScope a .Impl
          let a ← implMethodsVisit fuel node.children a
          some (.void, exitScope a)
      | .error _ =>
          some (.error, add_error a (SemanticError.new .Other
            s!"'{struct_name}' struct'ı tanımlı değil, impl yapılamaz" node.token))

/-- `SemanticAnalyzer::visit_member_expr` (every struct member reads as
`Int` in the source). -/
def visitMemberExpr : Nat → AstNode → AState → Option (Ty × AState)
  | 0, _, _ => none
  | fuel + 1, node, a =>
      match node.children with
      | child :: _ => do
          let (struct_expr_type, a) ← visitNode fuel child a
          let _member_name ← node.value
          match struct_expr_type with
          | .struct _ => some (.int, a)
          | _ =>
              let sd := struct_expr_type.display
              some (.error, add_error a (SemanticError.new .TypeMismatch
                s!"'.' operatörü struct tipi beklerken '{sd}' tipi bulundu" node.token))
      | [] =>
          some (.error, add_error a (SemanticError.new .Other
            "Üye erişimi ifadesi eksik" node.token))

/-- `SemanticAnalyzer::visit_index_expr`. -/
def visitIndexExpr : Nat → AstNode → AState → Option (Ty × AState)
  | 0, _, _ => none
  | fuel + 1, node, a =>
      match node.children with
      | arrayChild :: indexChild :: _ => do
          let (array_expr_type, a) ← visitNode fuel arrayChild a
          let (index_expr_type, a) ← visitNode fuel indexChild a
          let a :=
            if index_expr_type != Ty.int ∧ index_expr_type != Ty.error then
              let idd := index_expr_type.display
              add_error a (SemanticError.new .TypeMismatch
                s!"Dizin ifadesi integer tipinde olmalı, bulunan: {idd}" indexChild.token)
            else a
          match array_expr_type with
          | .array elem_type _ => some (elem_type, a)
          | .string => some (.string, a)
          | .error => some (.error, a)
          | _ =>
              let ad := array_expr_type.display
              some (.error, add_error a (SemanticError.new .TypeMismatch
                s!"'[]' operatörü dizi veya string tipi beklerken '{ad}' tipi bulundu"
                node.token))
      | _ =>
          some (.error, add_error a (SemanticError.new .Other
            "Dizin erişimi ifadesi eksik" node.token))

/-- `SemanticAnalyzer::visit_module_declaration`. -/
def visitModuleDeclaration : Nat → AstNode → AState → Option (Ty × AState)
  | 0, _, _ => none
  | fuel + 1, node, a => do
      let module_name ← node.value
      let module_type := Ty.module module_name
      let module_symbol := Symbol.new module_name module_type .Module false
        a.symbol_table.current_level node.tokLine node.tokCol
      match a.symbol_table.define_symbol module_symbol with
      | .error err => some (.error, add_error a err)
      | .ok table =>
          let a := { a with symbol_table := table }
          let a := enterScope a .Module
          let a ← visitEach fuel node.children a
          some (module_type, exitScope a)

end

/-- The warning emitted by `check_unused_variables` for one unused symbol. -/
def unusedWarning (symbol : Symbol) : SemanticError :=
  let n := symbol.name
  let k := symbol.kind.display
  SemanticError.with_position .Other
    s!"'{n}' {k} tanımlandı fakat hiç kullanılmadı" symbol.line symbol.column

/-- `SemanticAnalyzer::check_unused_variables`: one warning per symbol
reported by `get_unused_symbols`, skipping a Function symbol named
`main` (unreachable, as `get_unused_symbols` already drops every
Function symbol). -/
def check_unused_variables (a : AState) : AState :=
  (a.symbol_table.get_unused_symbols).foldl
    (fun a symbol =>
      if symbol.kind = .Function ∧ symbol.name = "main" then a
      else add_warning a (unusedWarning symbol))
    a

/-- `SemanticAnalyzer::check_uninitialized_variables`. -/
def check_uninitialized_variables (a : AState) : AState :=
  (a.symbol_table.get_uninitialized_symbols).foldl
    (fun a symbol =>
      let n := symbol.name
      add_error a (SemanticError.with_position .Other
        s!"'{n}' değişkeni kullanılmadan önce başlatılmamış" symbol.line symbol.column))
    a

/-- `SemanticAnalyzer::analyze`: clear the diagnostics, walk the tree, run
the two closing passes, and return the accumulated diagnostics. -/
def analyze (fuel : Nat) (ast : AstNode) (a : AState) :
    Option (List SemanticError × AState) := do
  let a := { a with errors := [] }
  let (_, a) ← visitNode fuel ast a
  let a := check_unused_variables a
  let a := check_uninitialized_variables a
  some (a.errors, a)

end SemanticAnalyzer

/-! ## Verification harness

Pipeline helpers and concrete fixtures the theorems below are stated
with.  These are statement plumbing, not embeddings of source code. -/

/-- Tokenize a source string and parse it as a single expression,
dropping the final parser state. -/
def parseExprResult (src : String) : Option (Except String AstNode) :=
  match Lexer.tokenize src with
  | some toks => (Parser.parseExpression 400 (Parser.new toks)).map Prod.fst
  | none => none

/-- An expected AST shape: category, value, children (token and position
are ignored by the source's structural equality). -/
def mkNode (t : AstNodeType) (v : Option String) (cs : List AstNode) : AstNode :=
  .mk t none cs v none 0 0

/-- Expected literal node. -/
def litE (v : String) : AstNode := mkNode .LiteralExpr (some v) []

/-- Expected identifier node. -/
def idnE (v : String) : AstNode := mkNode .IdentifierExpr (some v) []

/-- Expected binary-expression node. -/
def binE (op : String) (l r : AstNode) : AstNode := mkNode .BinaryExpr (some op) [l, r]

/-- Expected unary-expression node. -/
def unE (op : String) (x : AstNode) : AstNode := mkNode .UnaryExpr (some op) [x]

/-- Does `src` parse, as an expression, to the expected shape (up to the
source's structural AST equality)? -/
def exprParsesTo (src : String) (expected : AstNode) : Bool :=
  match parseExprResult src with
  | some (.ok n) => n.structEq expected
  | _ => false

/-- Tokenize and parse a source string, keeping the first top-level
declaration of the program node (errors, if any, notwithstanding). -/
def firstDeclOf (src : String) : Option AstNode :=
  match Lexer.tokenize src with
  | some toks =>
      match Parser.parseProgram 400 (Parser.new toks) with
      | some (program, _) => program.children.head?
      | none => none
  | none => none

/-- Run the analyzer's visitor on the first declaration of `src` from a
fresh state and report the diagnostic kinds it produced. -/
def declErrTypes (src : String) : Option (List SemanticErrorType) := do
  let node ← firstDeclOf src
  let (_, a) ← SemanticAnalyzer.visitNode 400 node SemanticAnalyzer.new
  some (a.errors.map SemanticError.error_type)

/-- A symbol table holding one never-used, non-`main` function symbol. -/
def tblFoo : SymbolTable :=
  match SymbolTable.new.define_function "foo" .void [] 1 1 with
  | .ok t => t
  | .error _ => SymbolTable.new

/-- A scope-stack operation, for stating the C8 invariant. -/
inductive ScopeOp where
  | enter (scope_type : ScopeType)
  | leave

/-- Apply one scope operation. -/
def applyOp (t : SymbolTable) : ScopeOp → SymbolTable
  | .enter scope_type => t.enter_scope scope_type
  | .leave => (t.exit_scope).2

/-- Apply a sequence of scope operations. -/
def applyOps (ops : List ScopeOp) (t : SymbolTable) : SymbolTable :=
  ops.foldl applyOp t

/-- `n` parser advances. -/
def Parser.advanceN : Nat → PState → PState
  | 0, s => s
  | n + 1, s => Parser.advanceN n (Parser.advance s)

/-- What panic-mode recovery must do: starting from `s`, the parser only
skips tokens that neither are `;` nor start a declaration/statement, and
stops either at end of input, or at a declaration starter (unconsumed), or
just after consuming a `;` — with the recorded errors untouched. -/
def SyncStops (s s' : PState) : Prop :=
  s'.errors = s.errors ∧
  ∃ n, (∀ m, m < n → ∀ t, (Parser.advanceN m s).cur = some t →
        t.token_type ≠ .Semicolon ∧ Parser.isSyncStart t.token_type = false) ∧
    ((s' = Parser.advanceN n s ∧ (Parser.advanceN n s).cur = none) ∨
     (s' = Parser.advanceN n s ∧ ∃ t, (Parser.advanceN n s).cur = some t ∧
        Parser.isSyncStart t.token_type = true) ∨
     (∃ t, (Parser.advanceN n s).cur = some t ∧ t.token_type = .Semicolon ∧
        s' = Parser.advance (Parser.advanceN n s)))

/-- The assignment expression `name = <int literal>`, as the parser builds
it (an identifier target and an `IntLiteral`-token literal operand). -/
def assignIntNode (name lex : String) (line column : Nat) : AstNode :=
  AstNode.mk .BinaryExpr none
    [AstNode.mk .IdentifierExpr none [] (some name) none 0 0,
     AstNode.mk .LiteralExpr (some (Token.new .IntLiteral lex line column)) []
       (some lex) none line column]
    (some "=") none 0 0

/-- A symbol table holding one immutable, uninitialized `int` variable `x`
at the global scope. -/
def tblX : SymbolTable :=
  match SymbolTable.new.define_variable "x" Ty.int false false 1 1 with
  | .ok t => t
  | .error _ => SymbolTable.new

/-- The symbol that `tblX` holds for `x`. -/
def symX : Symbol := Symbol.new_variable "x" Ty.int false 0 1 1 false

/-! ## Theorems -/

/-- C1: The claim says Int-to-Float coercion is accepted in declarations
and Float-to-Int rejected: `let y: float = 5;` should produce no
diagnostic and `let z: int = 5.0;` a TypeMismatch.  The code does the
reverse: the compatibility relation itself does accept Int where Float is
expected (`Int.is_compatible_with(Float)` holds and the converse fails),
but `can_assign_from` applies the relation as
`declared.is_compatible_with(initializer)`, so the analyzer emits a
TypeMismatch for `let y: float = 5;` and accepts `let z: int = 5.0;`. -/
theorem C1_coercion_reversed :
    Ty.is_compatible_with .int .float = true ∧
    Ty.is_compatible_with .float .int = false ∧
    declErrTypes "let y: float = 5;" = some [.TypeMismatch] ∧
    declErrTypes "let z: int = 5.0;" = some [] :=
  ⟨rfl, rfl, rfl, rfl⟩

/-- C2 counterexample: a symbol table holding a never-used Function symbol
named `foo` (not the entry point) for which the closing unused-symbol pass
emits no warning at all — refuting the claim that every never-used symbol
except `main` is warned about. -/
theorem C2_counterexample :
    (tblFoo.resolve "foo").toOption.map Symbol.kind = some .Function ∧
    (tblFoo.resolve "foo").toOption.map Symbol.is_used = some false ∧
    (tblFoo.resolve "foo").toOption.map Symbol.name = some "foo" ∧
    (SemanticAnalyzer.check_unused_variables ⟨tblFoo, none, [], false⟩).errors = [] :=
  ⟨rfl, rfl, rfl, rfl⟩

/-- C3 counterexample: lexing the input `5.` — a numeric literal whose
decimal point sits at the very end of the input, so it is not followed by
a digit — produces a `FloatLiteral` token, not the `Invalid` token the
claim requires at every position including end of input. -/
theorem C3_counterexample :
    (Lexer.tokenize "5.").map (List.map Token.token_type) =
      some [.FloatLiteral, .EOF] ∧
    TokenType.FloatLiteral ≠ TokenType.Invalid :=
  ⟨rfl, by decide⟩

/-- C6: Binary operator precedence follows
assignment < equality < comparison < term < factor < unary < power, each
non-assignment level grouping left-associatively: `1 + 2 * 3` parses as
`Add(1, Mul(2, 3))`, comparisons group under equality, terms under
comparison, unary `-` under factor, power under unary `-`, and
`a = 1 == 2` nests the equality inside the assignment. -/
theorem C6_precedence :
    exprParsesTo "1 + 2 * 3" (binE "+" (litE "1") (binE "*" (litE "2") (litE "3"))) =
      true ∧
    exprParsesTo "1 < 2 == 3 < 4"
      (binE "==" (binE "<" (litE "1") (litE "2")) (binE "<" (litE "3") (litE "4"))) =
      true ∧
    exprParsesTo "1 + 2 < 3 + 4"
      (binE "<" (binE "+" (litE "1") (litE "2")) (binE "+" (litE "3") (litE "4"))) =
      true ∧
    exprParsesTo "2 * -3" (binE "*" (litE "2") (unE "-" (litE "3"))) = true ∧
    exprParsesTo "-2 ^ 3" (unE "-" (binE "^" (litE "2") (litE "3"))) = true ∧
    exprParsesTo "a = 1 == 2" (binE "=" (idnE "a") (binE "==" (litE "1") (litE "2"))) =
      true ∧
    exprParsesTo "1 - 2 + 3" (binE "+" (binE "-" (litE "1") (litE "2")) (litE "3")) =
      true ∧
    exprParsesTo "8 / 4 % 2" (binE "%" (binE "/" (litE "8") (litE "4")) (litE "2")) =
      true ∧
    exprParsesTo "1 == 2 != 3" (binE "!=" (binE "==" (litE "1") (litE "2")) (litE "3")) =
      true ∧
    exprParsesTo "1 < 2 > 3" (binE ">" (binE "<" (litE "1") (litE "2")) (litE "3")) =
      true ∧
    exprParsesTo "2 ^ 3 ^ 2" (binE "^" (binE "^" (litE "2") (litE "3")) (litE "2")) =
      true :=
  ⟨rfl, rfl, rfl, rfl, rfl, rfl, rfl, rfl, rfl, rfl, rfl⟩

theorem numberLoopF_digit_step (f : Nat) (s : LexState) (acc : String) (flag : Bool)
    (sp : Nat) (d : Char) (tl : List Char) (hin : s.input = d :: tl)
    (hd : d.isDigit = true) :
    Lexer.numberLoopF (f + 1) s acc flag sp =
      Lexer.numberLoopF f (Lexer.advance s).2 (acc.push d) flag sp := by
  simp only [Lexer.numberLoopF, hin]
  simp [hd]

theorem numberLoopF_invalid_of_dot (ds : List Char) :
    ∀ (fuel : Nat) (s : LexState) (acc : String) (sp : Nat) (c : Char)
      (rest : List Char),
      s.input = ds ++ '.' :: c :: rest → (∀ d ∈ ds, d.isDigit = true) →
      c.isDigit = false → s.input.length < fuel →
      (Lexer.numberLoopF fuel s acc false sp).1.token_type = .Invalid := by
  induction ds with
  | nil =>
      intro fuel s acc sp c rest hin _ hc hfuel
      cases fuel with
      | zero => omega
      | succ f =>
          have hdot : ('.' : Char).isDigit = false := by decide
          simp only [Lexer.numberLoopF, hin]
          simp [Lexer.advance, hdot, hc, hin, Token.new]
  | cons d ds ih =>
      intro fuel s acc sp c rest hin hds hc hfuel
      cases fuel with
      | zero => omega
      | succ f =>
          have hd : d.isDigit = true := hds d (by simp)
          rw [numberLoopF_digit_step f s acc false sp d _ hin hd]
          apply ih f ((Lexer.advance s).2) _ _ c rest
          · simp [Lexer.advance, hin]
          · intro e he
            exact hds e (by simp [he])
          · exact hc
          · rw [hin] at hfuel
            simp [Lexer.advance, hin]
            simp at hfuel
            omega

theorem numberLoopF_float_of_trailing_dot (ds : List Char) :
    ∀ (fuel : Nat) (s : LexState) (acc : String) (sp : Nat),
      s.input = ds ++ ['.'] → (∀ d ∈ ds, d.isDigit = true) →
      s.input.length < fuel →
      (Lexer.numberLoopF fuel s acc false sp).1.token_type = .FloatLiteral := by
  induction ds with
  | nil =>
      intro fuel s acc sp hin _ hfuel
      cases fuel with
      | zero => omega
      | succ f =>
          have hdot : ('.' : Char).isDigit = false := by decide
          simp only [Lexer.numberLoopF, hin]
          simp only [List.nil_append] at hin
          simp [Lexer.advance, hdot, hin]
          cases f with
          | zero => simp [Lexer.numberLoopF, Token.new]
          | succ f => simp [Lexer.numberLoopF, Token.new]
  | cons d ds ih =>
      intro fuel s acc sp hin hds hfuel
      cases fuel with
      | zero => omega
      | succ f =>
          have hd : d.isDigit = true := hds d (by simp)
          rw [numberLoopF_digit_step f s acc false sp d _ hin hd]
          apply ih f ((Lexer.advance s).2) _ _
          · simp [Lexer.advance, hin]
          · intro e he
            exact hds e (by simp [he])
          · rw [hin] at hfuel
            simp [Lexer.advance, hin]
            simp at hfuel
            omega

/-- C3 amended: a numeric literal whose decimal point is followed by a
further character that is not a digit yields an `Invalid` token, at any
position in the input; but when the decimal point is the last character of
the input (nothing follows it), the lexer instead produces a
`FloatLiteral` token. -/
theorem C3_amended_dot_handling :
    (∀ (s : LexState) (first : Char) (ds : List Char) (c : Char) (rest : List Char),
        s.input = ds ++ '.' :: c :: rest → (∀ d ∈ ds, d.isDigit = true) →
        c.isDigit = false →
        (Lexer.number s first).1.token_type = .Invalid) ∧
    (∀ (s : LexState) (first : Char) (ds : List Char),
        s.input = ds ++ ['.'] → (∀ d ∈ ds, d.isDigit = true) →
        (Lexer.number s first).1.token_type = .FloatLiteral) := by
  constructor
  · intro s first ds c rest hin hds hc
    exact numberLoopF_invalid_of_dot ds (s.input.length + 1) s _ _ c rest hin hds hc
      (by omega)
  · intro s first ds hin hds
    exact numberLoopF_float_of_trailing_dot ds (s.input.length + 1) s _ _ hin hds
      (by omega)

/-- C3 amended, witnessed at concrete inputs: scanning `5` then `.x` gives
an `Invalid` token; scanning `5` then a final `.` gives a `FloatLiteral`. -/
theorem C3_amended_dot_handling_witness :
    (Lexer.number ⟨['.', 'x'], 1, 2, 1⟩ '5').1.token_type = .Invalid ∧
    (Lexer.number ⟨['.'], 1, 2, 1⟩ '5').1.token_type = .FloatLiteral :=
  ⟨C3_amended_dot_handling.1 ⟨['.', 'x'], 1, 2, 1⟩ '5' [] 'x' [] rfl (by simp)
      (by decide),
   C3_amended_dot_handling.2 ⟨['.'], 1, 2, 1⟩ '5' [] rfl (by simp)⟩

theorem get_unused_symbols_non_function (t : SymbolTable) :
    ∀ s ∈ t.get_unused_symbols, s.kind ≠ SymbolKind.Function := by
  intro s hs
  simp only [SymbolTable.get_unused_symbols, List.mem_flatMap, List.mem_filter,
    List.mem_map, decide_eq_true_eq] at hs
  obtain ⟨scope, _, ⟨_, _⟩, _, hkind⟩ := hs
  exact hkind

theorem check_unused_foldl (l : List Symbol) :
    ∀ a : AState, (∀ s ∈ l, s.kind ≠ SymbolKind.Function) →
      (l.foldl
        (fun a symbol =>
          if symbol.kind = .Function ∧ symbol.name = "main" then a
          else SemanticAnalyzer.add_warning a (SemanticAnalyzer.unusedWarning symbol))
        a).errors = a.errors ++ l.map SemanticAnalyzer.unusedWarning := by
  induction l with
  | nil => intro a _; simp
  | cons s l ih =>
      intro a hl
      have hs : s.kind ≠ SymbolKind.Function := hl s (by simp)
      simp only [List.foldl_cons, List.map_cons]
      rw [if_neg (by simp [hs])]
      rw [ih _ (fun x hx => hl x (by simp [hx]))]
      simp [SemanticAnalyzer.add_warning]

/-- C2 amended: after the full tree walk, the closing unused-symbol pass
produces exactly one warning for every symbol still present in the symbol
table that was never marked used and is not of Function kind; every
Function symbol — not only the entry point `main` — is excluded (the
analyzer's by-name `main` skip is subsumed by `get_unused_symbols`
filtering out all Function symbols). -/
theorem C2_amended_unused_pass :
    (∀ a : AState, (SemanticAnalyzer.check_unused_variables a).errors =
      a.errors ++
        (a.symbol_table.get_unused_symbols).map SemanticAnalyzer.unusedWarning) ∧
    (∀ (t : SymbolTable) (s : Symbol),
      s ∈ t.get_unused_symbols ↔
        (∃ scope ∈ t.scopes, ∃ key, (key, s) ∈ scope.symbols) ∧
          s.is_used = false ∧ s.kind ≠ .Function) := by
  constructor
  · intro a
    exact check_unused_foldl _ a (get_unused_symbols_non_function a.symbol_table)
  · intro t s
    simp only [SymbolTable.get_unused_symbols, List.mem_flatMap, List.mem_filter,
      List.mem_map, decide_eq_true_eq, Prod.exists]
    constructor
    · rintro ⟨scope, hscope, ⟨⟨key, v, hmem, hsnd⟩, hused, hkind⟩⟩
      subst hsnd
      exact ⟨⟨scope, hscope, key, hmem⟩, by simpa using hused, hkind⟩
    · rintro ⟨⟨scope, hscope, key, hmem⟩, hused, hkind⟩
      exact ⟨scope, hscope, ⟨⟨key, s, hmem, rfl⟩, by simp [hused], hkind⟩⟩

/-- C2 amended, witnessed on a fresh (empty) symbol table: the pass emits
no warnings because there are no unused non-Function symbols. -/
theorem C2_amended_unused_pass_witness :
    (SemanticAnalyzer.check_unused_variables ⟨SymbolTable.new, none, [], false⟩).errors =
      [] := by
  have h := C2_amended_unused_pass.1 ⟨SymbolTable.new, none, [], false⟩
  simpa using h

theorem enter_scope_scopes (t : SymbolTable) (scope_type : ScopeType) :
    (t.enter_scope scope_type).scopes =
      t.scopes ++ [Scope.new t.scopes.length scope_type] := by
  unfold SymbolTable.enter_scope
  dsimp only
  repeat' split
  all_goals rfl

theorem exit_scope_scopes (t : SymbolTable) :
    (t.exit_scope).2.scopes =
      if t.scopes.length > 1 then t.scopes.dropLast else t.scopes := by
  unfold SymbolTable.exit_scope
  dsimp only
  repeat' split
  all_goals rfl

/-- The C8 invariant: a non-empty scope stack whose bottom entry is the
Global scope. -/
def GlobalBottom (t : SymbolTable) : Prop :=
  t.scopes ≠ [] ∧ (t.scopes.head?.map Scope.scope_type) = some .Global

theorem globalBottom_applyOp (t : SymbolTable) (op : ScopeOp)
    (h : GlobalBottom t) : GlobalBottom (applyOp t op) := by
  obtain ⟨hne, hhead⟩ := h
  cases op with
  | enter scope_type =>
      constructor
      · simp [applyOp, enter_scope_scopes]
      · rw [show (applyOp t (.enter scope_type)).scopes =
            t.scopes ++ [Scope.new t.scopes.length scope_type] from
            enter_scope_scopes t scope_type]
        cases hs : t.scopes with
        | nil => exact absurd hs hne
        | cons a as => simpa [hs] using hhead
  | leave =>
      have hsc := exit_scope_scopes t
      by_cases hlen : t.scopes.length > 1
      · rw [if_pos hlen] at hsc
        cases hs : t.scopes with
        | nil => exact absurd hs hne
        | cons a as =>
            cases as with
            | nil => rw [hs] at hlen; simp at hlen
            | cons b bs =>
                constructor
                · rw [show (applyOp t .leave).scopes = (t.exit_scope).2.scopes from rfl,
                    hsc, hs]
                  simp
                · rw [show (applyOp t .leave).scopes = (t.exit_scope).2.scopes from rfl,
                    hsc, hs]
                  rw [hs] at hhead
                  simpa using hhead
      · rw [if_neg hlen] at hsc
        exact ⟨by rw [show (applyOp t .leave).scopes = (t.exit_scope).2.scopes from rfl,
            hsc]; exact hne,
          by rw [show (applyOp t .leave).scopes = (t.exit_scope).2.scopes from rfl, hsc]
             exact hhead⟩

theorem globalBottom_applyOps (ops : List ScopeOp) :
    ∀ t : SymbolTable, GlobalBottom t → GlobalBottom (applyOps ops t) := by
  induction ops with
  | nil => intro t h; exact h
  | cons op ops ih =>
      intro t h
      exact ih (applyOp t op) (globalBottom_applyOp t op h)

/-- C8: The scope stack is always non-empty with the Global scope (created
at construction) as its bottom entry, and this is preserved by every
sequence of `enter_scope`/`exit_scope` operations; `enter_scope` pushes a
new empty scope at the next nesting level (level = current stack size),
and `exit_scope` refuses to pop the last remaining scope, returning `none`
and leaving the table unchanged. -/
theorem C8_scope_stack_invariant :
    (∀ ops : List ScopeOp, GlobalBottom (applyOps ops SymbolTable.new)) ∧
    (∀ (t : SymbolTable) (scope_type : ScopeType),
      (t.enter_scope scope_type).scopes =
        t.scopes ++ [Scope.new t.scopes.length scope_type]) ∧
    (∀ (level : Nat) (scope_type : ScopeType),
      (Scope.new level scope_type).symbols = []) ∧
    (∀ t : SymbolTable, t.scopes.length ≤ 1 → t.exit_scope = (none, t)) := by
  refine ⟨?_, enter_scope_scopes, fun _ _ => rfl, ?_⟩
  · intro ops
    apply globalBottom_applyOps
    exact ⟨by simp [SymbolTable.new, enter_scope_scopes], rfl⟩
  · intro t hlen
    unfold SymbolTable.exit_scope
    rw [if_neg (by omega)]

/-- C8, witnessed: popping the freshly constructed table's only (Global)
scope is refused and leaves the table unchanged. -/
theorem C8_scope_stack_invariant_witness :
    SymbolTable.new.exit_scope = (none, SymbolTable.new) :=
  C8_scope_stack_invariant.2.2.2 SymbolTable.new (by decide)

theorem resolveAux_some_iff (name : String) (s : Symbol) :
    ∀ scopes : List Scope,
      SymbolTable.resolveAux scopes name = some s ↔
        ∃ k scope, scopes.get? k = some scope ∧ scope.resolve name = some s ∧
          ∀ j, j < k → ∀ scope', scopes.get? j = some scope' →
            scope'.resolve name = none := by
  intro scopes
  induction scopes with
  | nil => simp [SymbolTable.resolveAux]
  | cons sc rest ih =>
      cases h : sc.resolve name with
      | some s₀ =>
          simp only [SymbolTable.resolveAux, h]
          constructor
          · intro he
            injection he with he
            exact ⟨0, sc, rfl, by rw [h, he], fun j hj => by omega⟩
          · rintro ⟨k, scope, hk, hres, hmin⟩
            cases k with
            | zero =>
                simp only [List.get?] at hk
                injection hk with hk
                subst hk
                rw [h] at hres
                exact hres
            | succ k =>
                have h0 := hmin 0 (by omega) sc rfl
                rw [h] at h0
                cases h0
      | none =>
          simp only [SymbolTable.resolveAux, h]
          rw [ih]
          constructor
          · rintro ⟨k, scope, hk, hres, hmin⟩
            refine ⟨k + 1, scope, by simpa using hk, hres, ?_⟩
            intro j hj scope' hj'
            cases j with
            | zero =>
                simp only [List.get?] at hj'
                injection hj' with hj'
                subst hj'
                exact h
            | succ j => exact hmin j (by omega) scope' (by simpa using hj')
          · rintro ⟨k, scope, hk, hres, hmin⟩
            cases k with
            | zero =>
                simp only [List.get?] at hk
                injection hk with hk
                subst hk
                rw [h] at hres
                cases hres
            | succ k =>
                refine ⟨k, scope, by simpa using hk, hres, ?_⟩
                intro j hj scope' hj'
                exact hmin (j + 1) (by omega) scope' (by simpa using hj')

theorem resolveAux_none_iff (name : String) :
    ∀ scopes : List Scope,
      SymbolTable.resolveAux scopes name = none ↔
        ∀ scope ∈ scopes, scope.resolve name = none := by
  intro scopes
  induction scopes with
  | nil => simp [SymbolTable.resolveAux]
  | cons sc rest ih =>
      cases h : sc.resolve name with
      | some s₀ =>
          simp only [SymbolTable.resolveAux, h]
          constructor
          · intro he; cases he
          · intro hall
            have := hall sc (by simp)
            rw [h] at this
            cases this
      | none =>
          simp only [SymbolTable.resolveAux, h]
          rw [ih]
          constructor
          · intro hall scope hs
            rcases List.mem_cons.mp hs with rfl | hs
            · exact h
            · exact hall scope hs
          · intro hall scope hs
            exact hall scope (by simp [hs])

/-- C7: `define_symbol` inserts into the innermost (current) scope only —
the enclosing scopes are untouched, so a name existing only in an
enclosing scope never blocks the definition (shadowing) — and fails with a
Redefinition diagnostic carrying the original declaration's position
exactly when the name already exists in that exact scope; `resolve` walks
scopes from innermost to outermost and returns the first match, failing
with UndefinedVariable exactly when no scope on the stack contains the
name. -/
theorem C7_define_and_resolve :
    (∀ (t : SymbolTable) (symbol : Symbol) (last : Scope),
      t.scopes.getLast? = some last →
      (last.symbols.lookup symbol.name = none →
        t.define_symbol symbol = .ok { t with scopes := t.scopes.dropLast ++
          [{ last with symbols := last.symbols ++ [(symbol.name, symbol)] }] }) ∧
      (∀ existing, last.symbols.lookup symbol.name = some existing →
        t.define_symbol symbol = .error
          (Scope.redefinitionError symbol.name existing symbol.line symbol.column))) ∧
    (∀ (t : SymbolTable) (name : String) (s : Symbol),
      t.resolve name = .ok s ↔
        ∃ k scope, (t.scopes.reverse).get? k = some scope ∧
          scope.resolve name = some s ∧
          ∀ j, j < k → ∀ scope', (t.scopes.reverse).get? j = some scope' →
            scope'.resolve name = none) ∧
    (∀ (t : SymbolTable) (name : String),
      t.resolve name =
          .error (SemanticError.new .UndefinedVariable s!"'{name}' tanımlı değil" none) ↔
        ∀ scope ∈ t.scopes, scope.resolve name = none) := by
  refine ⟨?_, ?_, ?_⟩
  · intro t symbol last hlast
    constructor
    · intro hlook
      simp [SymbolTable.define_symbol, hlast, Scope.define, hlook]
    · intro existing hlook
      simp [SymbolTable.define_symbol, hlast, Scope.define, hlook]
  · intro t name s
    have hr : t.resolve name = .ok s ↔
        SymbolTable.resolveAux t.scopes.reverse name = some s := by
      unfold SymbolTable.resolve
      cases h : SymbolTable.resolveAux t.scopes.reverse name <;> simp [h]
    rw [hr, resolveAux_some_iff]
  · intro t name
    have hr : t.resolve name =
        .error (SemanticError.new .UndefinedVariable s!"'{name}' tanımlı değil" none) ↔
        SymbolTable.resolveAux t.scopes.reverse name = none := by
      unfold SymbolTable.resolve
      cases h : SymbolTable.resolveAux t.scopes.reverse name <;> simp [h]
    rw [hr, resolveAux_none_iff]
    constructor
    · intro hall scope hs
      exact hall scope (List.mem_reverse.mpr hs)
    · intro hall scope hs
      exact hall scope (List.mem_reverse.mp hs)

/-- C7, witnessed: defining `x` in a fresh table inserts it into the
Global scope (the innermost and only scope, which did not contain `x`). -/
theorem C7_define_and_resolve_witness :
    SymbolTable.new.define_symbol (Symbol.new "x" .int .Variable false 0 1 1) =
      .ok ⟨[⟨0, [("x", Symbol.new "x" .int .Variable false 0 1 1)], .Global⟩],
        none, none⟩ :=
  (C7_define_and_resolve.1 SymbolTable.new (Symbol.new "x" .int .Variable false 0 1 1)
    ⟨0, [], .Global⟩ rfl).1 rfl

theorem bindRes_ok {β α : Type} (b : β) (s : PState)
    (k : β → PState → Option (Except String α × PState)) :
    Parser.bindRes (some (.ok b, s)) k = k b s := rfl

theorem bindRes_err {β α : Type} (e : String) (s : PState)
    (k : β → PState → Option (Except String α × PState)) :
    Parser.bindRes (some (.error e, s)) k = some (.error e, s) := rfl

/-- C5: Assignment parses right-associatively — `a = b = 1` parses as an
assignment to `a` whose right operand is the nested assignment `b = 1` —
and an assignment whose left-hand side is not an identifier, member, or
index expression is rejected with a parse error naming an invalid
assignment target, as `1 = a` is. -/
theorem C5_assignment :
    (∀ (fuel : Nat) (s s₁ s₂ : PState) (expr value : AstNode) (op : Token),
      Parser.parseEquality fuel s = some (.ok expr, s₁) →
      s₁.cur = some op →
      op.token_type = .Assign →
      Parser.parseAssignment fuel (Parser.advance s₁) = some (.ok value, s₂) →
      expr.node_type ≠ .IdentifierExpr →
      expr.node_type ≠ .MemberExpr →
      expr.node_type ≠ .IndexExpr →
      Parser.parseAssignment (fuel + 1) s =
        some (.error (Parser.invalidTargetMsg op), s₂)) ∧
    exprParsesTo "a = b = 1"
      (binE "=" (idnE "a") (binE "=" (idnE "b") (litE "1"))) = true ∧
    parseExprResult "1 = a" =
      some (.error "Geçersiz atama hedefi, satır: 1, sütun: 3") := by
  refine ⟨?_, rfl, rfl⟩
  intro fuel s s₁ s₂ expr value op heq hcur hop hval h1 h2 h3
  simp only [Parser.parseAssignment, heq, bindRes_ok, hcur, hop, hval]

/-- C5, witnessed: `1 = a` — an assignment whose left-hand side is the
literal `1` — is rejected with the invalid-assignment-target error. -/
theorem C5_assignment_witness :
    Parser.parseAssignment 21 (Parser.new [Token.new .IntLiteral "1" 1 1,
        Token.new .Assign "=" 1 3, Token.new .Identifier "a" 1 5]) =
      some (.error (Parser.invalidTargetMsg (Token.new .Assign "=" 1 3)),
        ⟨[], none, []⟩) :=
  C5_assignment.1 20 _ ⟨[Token.new .Identifier "a" 1 5],
      some (Token.new .Assign "=" 1 3), []⟩ ⟨[], none, []⟩
    (AstNode.mk .LiteralExpr (some (Token.new .IntLiteral "1" 1 1)) [] (some "1") none 1 1)
    (AstNode.mk .IdentifierExpr (some (Token.new .Identifier "a" 1 5)) [] (some "a")
      none 1 5)
    (Token.new .Assign "=" 1 3) rfl rfl rfl rfl (by decide) (by decide) (by decide)

theorem lookup_updateAssoc (name : String) (f : Symbol → Symbol) :
    ∀ (l : List (String × Symbol)) (v : Symbol),
      List.lookup name l = some v →
      List.lookup name (SymbolTable.updateAssoc l name f) = some (f v) := by
  intro l
  induction l with
  | nil => intro v h; simp [List.lookup] at h
  | cons kv rest ih =>
      intro v h
      obtain ⟨k, w⟩ := kv
      by_cases hk : k = name
      · subst hk
        simp [List.lookup] at h
        simp [SymbolTable.updateAssoc, List.lookup, h]
      · have hk' : (name == k) = false := by
          simp
          exact fun he => hk he.symm
        simp only [List.lookup, hk', SymbolTable.updateAssoc, if_neg hk] at h ⊢
        exact ih v h

theorem markFirst_spec (name : String) (f : Symbol → Symbol) :
    ∀ (scopes : List Scope) (sym : Symbol),
      SymbolTable.resolveAux scopes name = some sym →
      ∃ scopes', SymbolTable.markFirst scopes name f = some scopes' ∧
        SymbolTable.resolveAux scopes' name = some (f sym) := by
  intro scopes
  induction scopes with
  | nil => intro sym h; simp [SymbolTable.resolveAux] at h
  | cons sc rest ih =>
      intro sym h
      cases hr : sc.resolve name with
      | some v =>
          have hv : v = sym := by
            simp only [SymbolTable.resolveAux, hr] at h
            injection h
          subst hv
          refine ⟨{ sc with symbols := SymbolTable.updateAssoc sc.symbols name f } :: rest,
            by simp [SymbolTable.markFirst, hr], ?_⟩
          have hlook := lookup_updateAssoc name f sc.symbols v hr
          simp [SymbolTable.resolveAux, Scope.resolve, hlook]
      | none =>
          have h' : SymbolTable.resolveAux rest name = some sym := by
            simpa [SymbolTable.resolveAux, hr] using h
          obtain ⟨rest', hm, hres⟩ := ih sym h'
          refine ⟨sc :: rest', ?_, ?_⟩
          · simp [SymbolTable.markFirst, hr, hm]
          · simp [SymbolTable.resolveAux, hr, hres]

theorem resolve_ok_elim (t : SymbolTable) (name : String) (sym : Symbol)
    (h : t.resolve name = .ok sym) :
    SymbolTable.resolveAux t.scopes.reverse name = some sym := by
  unfold SymbolTable.resolve at h
  cases hr : SymbolTable.resolveAux t.scopes.reverse name with
  | some v => rw [hr] at h; injection h with h; rw [h]
  | none => rw [hr] at h; cases h

theorem mark_used_spec (t : SymbolTable) (name : String) (sym : Symbol)
    (h : t.resolve name = .ok sym) :
    ∃ t', t.mark_used name = .ok t' ∧
      t' = { t with scopes := t'.scopes } ∧
      t'.resolve name = .ok (sym.set_used true) := by
  obtain ⟨rev, hm, hres⟩ :=
    markFirst_spec name (fun s => s.set_used true) t.scopes.reverse sym
      (resolve_ok_elim t name sym h)
  refine ⟨{ t with scopes := rev.reverse }, ?_, rfl, ?_⟩
  · simp [SymbolTable.mark_used, hm]
  · unfold SymbolTable.resolve
    simp [hres]

theorem mark_initialized_spec (t : SymbolTable) (name : String) (sym : Symbol)
    (h : t.resolve name = .ok sym) :
    ∃ t', t.mark_initialized name = .ok t' ∧
      t' = { t with scopes := t'.scopes } ∧
      t'.resolve name = .ok (sym.set_initialized true) := by
  obtain ⟨rev, hm, hres⟩ :=
    markFirst_spec name (fun s => s.set_initialized true) t.scopes.reverse sym
      (resolve_ok_elim t name sym h)
  refine ⟨{ t with scopes := rev.reverse }, ?_, rfl, ?_⟩
  · simp [SymbolTable.mark_initialized, hm]
  · unfold SymbolTable.resolve
    simp [hres]

theorem set_used_is_mutable (s : Symbol) (b : Bool) :
    (s.set_used b).is_mutable = s.is_mutable := by cases s; rfl

theorem set_used_symbol_type (s : Symbol) (b : Bool) :
    (s.set_used b).symbol_type = s.symbol_type := by cases s; rfl

theorem visitIdentifier_spec (name : String) (a : AState) (sym : Symbol)
    (h : a.symbol_table.resolve name = .ok sym) :
    ∃ t₁, a.symbol_table.mark_used name = .ok t₁ ∧
      t₁.resolve name = .ok (sym.set_used true) ∧
      SemanticAnalyzer.visitIdentifier
          (AstNode.mk .IdentifierExpr none [] (some name) none 0 0) a =
        some (sym.symbol_type,
          { a with
              symbol_table := t₁
              errors := a.errors ++
                (if sym.kind = .Variable ∧ sym.is_initialized = false then
                  [SemanticError.new .Other
                    s!"'{name}' değişkeni kullanımdan önce başlatılmamış" none]
                else []) }) := by
  obtain ⟨t₁, hm, _, hres⟩ := mark_used_spec _ name sym h
  refine ⟨t₁, hm, hres, ?_⟩
  unfold SemanticAnalyzer.visitIdentifier
  by_cases hcond : sym.kind = .Variable ∧ sym.is_initialized = false
  · simp [AstNode.value, AstNode.token, h, hm, hcond,
      SemanticAnalyzer.applyTable, SemanticAnalyzer.add_error]
  · simp [AstNode.value, AstNode.token, h, hm, hcond,
      SemanticAnalyzer.applyTable, SemanticAnalyzer.add_error]

/-- C10: visiting an assignment `name = <int literal>` whose target
resolves to an `int` variable records the mutability error exactly when
the symbol is not mutable, and — on the error path exactly as on the
success path — still marks the target symbol used and initialized in the
table, so a later read of the variable does not additionally report it as
uninitialized.  (The preceding visit of the left-hand identifier may add
the usual uninitialized-read diagnostic; it appears in both paths alike.) -/
theorem C10_assignment_marks_initialized :
    ∀ (t : SymbolTable) (name lex : String) (sym : Symbol) (line column fuel : Nat)
      (cfrt : Option Ty) (errs : List SemanticError) (il : Bool),
      t.resolve name = .ok sym →
      sym.symbol_type = .int →
      ∃ t₂,
        SemanticAnalyzer.visitNode (fuel + 3) (assignIntNode name lex line column)
            ⟨t, cfrt, errs, il⟩ =
          some (.int,
            ⟨t₂, cfrt,
              errs ++
                (if sym.kind = .Variable ∧ sym.is_initialized = false then
                  [SemanticError.new .Other
                    s!"'{name}' değişkeni kullanımdan önce başlatılmamış" none]
                else []) ++
                (if sym.is_mutable = false then
                  [SemanticError.new .Other
                    s!"'{name}' değiştirilemez (mut değil)" none]
                else []),
              il⟩) ∧
        t₂.resolve name = .ok ((sym.set_used true).set_initialized true) := by
  intro t name lex sym line column fuel cfrt errs il ht hsym
  obtain ⟨t₁, hm, hres1, hvisit⟩ := visitIdentifier_spec name ⟨t, cfrt, errs, il⟩ sym ht
  obtain ⟨t₂, hmi, _, hres2⟩ := mark_initialized_spec t₁ name (sym.set_used true) hres1
  refine ⟨t₂, ?_, hres2⟩
  have hca : Ty.can_assign_from Ty.int Ty.int = .ok () := rfl
  have hbe : (Ty.int == Ty.error) = false := rfl
  show SemanticAnalyzer.visitBinaryExpr (fuel + 2) (assignIntNode name lex line column)
    ⟨t, cfrt, errs, il⟩ = _
  rw [show fuel + 2 = (fuel + 1) + 1 from rfl]
  simp only [SemanticAnalyzer.visitBinaryExpr, assignIntNode, AstNode.children,
    AstNode.node_type, AstNode.value, AstNode.token]
  simp only [SemanticAnalyzer.visitNode, AstNode.node_type, hvisit,
    SemanticAnalyzer.visitLiteral, AstNode.token, Token.new, Option.some_bind]
  simp only [hsym, set_used_symbol_type, set_used_is_mutable, hres1, hca, hmi,
    SemanticAnalyzer.applyTable, SemanticAnalyzer.add_error]
  by_cases hmut : sym.is_mutable = false <;>
    by_cases hread : sym.kind = .Variable ∧ sym.is_initialized = false <;>
      simp [hread, hmut, hsym, hres1, hca, hmi, hbe, set_used_symbol_type, set_used_is_mutable,
        SemanticAnalyzer.applyTable, SemanticAnalyzer.add_error, Token.new]

/-- Witness for C10: visiting `x = 5` against a table holding the immutable,
uninitialized `int` variable `x` yields both the uninitialized-read and the
immutability diagnostics, and leaves `x` marked used and initialized. -/
theorem C10_assignment_marks_initialized_witness :
    tblX.resolve "x" = .ok symX ∧ symX.symbol_type = .int ∧
    ∃ t₂,
      SemanticAnalyzer.visitNode 3 (assignIntNode "x" "5" 1 5)
          ⟨tblX, none, [], false⟩ =
        some (.int,
          ⟨t₂, none,
            ([] : List SemanticError) ++
              (if symX.kind = .Variable ∧ symX.is_initialized = false then
                [SemanticError.new .Other
                  "'x' değişkeni kullanımdan önce başlatılmamış" none]
              else []) ++
              (if symX.is_mutable = false then
                [SemanticError.new .Other
                  "'x' değiştirilemez (mut değil)" none]
              else []),
            false⟩) ∧
      t₂.resolve "x" = .ok ((symX.set_used true).set_initialized true) :=
  ⟨rfl, rfl,
    C10_assignment_marks_initialized tblX "x" "5" symX 1 5 0 none [] false rfl rfl⟩

/-! ### Lexer progress lemmas (for C9) -/

/-- `advance` never lengthens the remaining input. -/
theorem Lexer.advance_le (s : LexState) :
    ((Lexer.advance s).2).input.length ≤ s.input.length := by
  cases h : s.input <;> simp [Lexer.advance, h]

/-- `advance` drops exactly the head of a nonempty input. -/
theorem Lexer.advance_input_cons (s : LexState) (c : Char) (rest : List Char)
    (h : s.input = c :: rest) : ((Lexer.advance s).2).input = rest := by
  simp [Lexer.advance, h]

/-- The whitespace loop never lengthens the remaining input. -/
theorem Lexer.skipWhitespaceF_le :
    ∀ (fuel : Nat) (s : LexState),
      (Lexer.skipWhitespaceF fuel s).input.length ≤ s.input.length := by
  intro fuel
  induction fuel with
  | zero => intro s; simp [Lexer.skipWhitespaceF]
  | succ n ih =>
      intro s
      rw [Lexer.skipWhitespaceF]
      cases h : s.input with
      | nil => simp [h]
      | cons c rest =>
          by_cases hw : c.isWhitespace
          · simp only [hw, if_true]
            calc (Lexer.skipWhitespaceF n (Lexer.advance s).2).input.length
                ≤ (Lexer.advance s).2.input.length := ih _
              _ = rest.length := by rw [Lexer.advance_input_cons s c rest h]
              _ ≤ (c :: rest).length := by simp
          · simp [hw, h]

/-- `skip_whitespace` never lengthens the remaining input. -/
theorem Lexer.skipWhitespace_le (s : LexState) :
    (Lexer.skipWhitespace s).input.length ≤ s.input.length :=
  Lexer.skipWhitespaceF_le _ s

/-- The identifier loop never lengthens the remaining input. -/
theorem Lexer.identLoopF_le :
    ∀ (fuel : Nat) (s : LexState) (acc : String),
      (Lexer.identLoopF fuel s acc).2.input.length ≤ s.input.length := by
  intro fuel
  induction fuel with
  | zero => intro s acc; simp [Lexer.identLoopF]
  | succ n ih =>
      intro s acc
      rw [Lexer.identLoopF]
      cases h : s.input with
      | nil => simp [h]
      | cons c rest =>
          by_cases hc : c.isAlphanum ∨ c = '_'
          · simp only [hc, if_true]
            calc (Lexer.identLoopF n (Lexer.advance s).2 (acc.push c)).2.input.length
                ≤ (Lexer.advance s).2.input.length := ih _ _
              _ = rest.length := by rw [Lexer.advance_input_cons s c rest h]
              _ ≤ (c :: rest).length := by simp
          · simp [hc, h]

/-- The number loop never lengthens the remaining input. -/
theorem Lexer.numberLoopF_le :
    ∀ (fuel : Nat) (s : LexState) (acc : String) (is_float : Bool) (start_pos : Nat),
      (Lexer.numberLoopF fuel s acc is_float start_pos).2.input.length ≤
        s.input.length := by
  intro fuel
  induction fuel with
  | zero => intro s acc f p; simp [Lexer.numberLoopF]
  | succ n ih =>
      intro s acc f p
      rw [Lexer.numberLoopF]
      cases h : s.input with
      | nil => simp [h]
      | cons c rest =>
          have hadv : ((Lexer.advance s).2).input = rest :=
            Lexer.advance_input_cons s c rest h
          have hstep : ∀ acc2 f2,
              (Lexer.numberLoopF n (Lexer.advance s).2 acc2 f2 p).2.input.length ≤
                (c :: rest).length := by
            intro acc2 f2
            calc (Lexer.numberLoopF n (Lexer.advance s).2 acc2 f2 p).2.input.length
                ≤ (Lexer.advance s).2.input.length := ih _ _ _ _
              _ = rest.length := by rw [hadv]
              _ ≤ (c :: rest).length := by simp
          dsimp only
          repeat' split
          all_goals
            first
              | exact hstep _ _
              | (simp only [hadv, List.length_cons]; omega)
              | (simp only [h, List.length_cons]; omega)

/-- The string loop never lengthens the remaining input. -/
theorem Lexer.stringLoopF_le :
    ∀ (fuel : Nat) (s : LexState) (acc : String) (escaped : Bool) (start_pos : Nat),
      (Lexer.stringLoopF fuel s acc escaped start_pos).2.input.length ≤
        s.input.length := by
  intro fuel
  induction fuel with
  | zero => intro s acc e p; simp [Lexer.stringLoopF]
  | succ n ih =>
      intro s acc e p
      rw [Lexer.stringLoopF]
      cases h : s.input with
      | nil => simp [h]
      | cons c rest =>
          have hadv : ((Lexer.advance s).2).input = rest :=
            Lexer.advance_input_cons s c rest h
          have hstep : ∀ acc2 e2,
              (Lexer.stringLoopF n (Lexer.advance s).2 acc2 e2 p).2.input.length ≤
                (c :: rest).length := by
            intro acc2 e2
            calc (Lexer.stringLoopF n (Lexer.advance s).2 acc2 e2 p).2.input.length
                ≤ (Lexer.advance s).2.input.length := ih _ _ _ _
              _ = rest.length := by rw [hadv]
              _ ≤ (c :: rest).length := by simp
          dsimp only
          repeat' split
          all_goals
            first
              | exact hstep _ _
              | (simp only [hadv, List.length_cons]; omega)
              | (simp only [h, List.length_cons]; omega)

/-- The line-comment loop never lengthens the remaining input. -/
theorem Lexer.commentLineLoopF_le :
    ∀ (fuel : Nat) (s : LexState) (acc : String),
      (Lexer.commentLineLoopF fuel s acc).2.input.length ≤ s.input.length := by
  intro fuel
  induction fuel with
  | zero => intro s acc; simp [Lexer.commentLineLoopF]
  | succ n ih =>
      intro s acc
      rw [Lexer.commentLineLoopF]
      cases h : s.input with
      | nil => simp [h]
      | cons c rest =>
          have hadv : ((Lexer.advance s).2).input = rest :=
            Lexer.advance_input_cons s c rest h
          have hrest : rest.length ≤ (c :: rest).length := by simp
          by_cases hn : c = '\n'
          · simp only [hn, if_true]
            calc (Lexer.advance s).2.input.length = rest.length := by rw [hadv]
              _ ≤ (c :: rest).length := hrest
          · simp only [hn, if_false]
            calc (Lexer.commentLineLoopF n (Lexer.advance s).2 (acc.push c)).2.input.length
                ≤ (Lexer.advance s).2.input.length := ih _ _
              _ = rest.length := by rw [hadv]
              _ ≤ (c :: rest).length := hrest

/-- The block-comment loop never lengthens the remaining input. -/
theorem Lexer.commentBlockLoopF_le :
    ∀ (fuel : Nat) (s : LexState) (acc : String) (prev : Char),
      (Lexer.commentBlockLoopF fuel s acc prev).2.input.length ≤ s.input.length := by
  intro fuel
  induction fuel with
  | zero => intro s acc prev; simp [Lexer.commentBlockLoopF]
  | succ n ih =>
      intro s acc prev
      rw [Lexer.commentBlockLoopF]
      cases h : s.input with
      | nil => simp [h]
      | cons c rest =>
          have hadv : ((Lexer.advance s).2).input = rest :=
            Lexer.advance_input_cons s c rest h
          have hrest : rest.length ≤ (c :: rest).length := by simp
          by_cases hcl : prev = '*' ∧ c = '/'
          · simp only [hcl, if_true]
            calc (Lexer.advance s).2.input.length = rest.length := by rw [hadv]
              _ ≤ (c :: rest).length := hrest
          · simp only [hcl, if_false]
            calc (Lexer.commentBlockLoopF n (Lexer.advance s).2 (acc.push c)
                  c).2.input.length
                ≤ (Lexer.advance s).2.input.length := ih _ _ _
              _ = rest.length := by rw [hadv]
              _ ≤ (c :: rest).length := hrest

/-- `identifier` never lengthens the remaining input. -/
theorem Lexer.identifier_le (s : LexState) (c : Char) :
    (Lexer.identifier s c).2.input.length ≤ s.input.length := by
  rcases hl : Lexer.identLoop s (String.singleton c) with ⟨ident, s2⟩
  have h2 : s2.input.length ≤ s.input.length := by
    have := Lexer.identLoopF_le (s.input.length + 1) s (String.singleton c)
    rw [Lexer.identLoop] at hl
    rw [hl] at this
    exact this
  simp [Lexer.identifier, hl, h2]

/-- `number` never lengthens the remaining input. -/
theorem Lexer.number_le (s : LexState) (c : Char) :
    (Lexer.number s c).2.input.length ≤ s.input.length := by
  rw [Lexer.number, Lexer.numberLoop]
  exact Lexer.numberLoopF_le _ _ _ _ _

/-- `stringLit` never lengthens the remaining input. -/
theorem Lexer.stringLit_le (s : LexState) :
    (Lexer.stringLit s).2.input.length ≤ s.input.length := by
  rw [Lexer.stringLit, Lexer.stringLoop]
  exact Lexer.stringLoopF_le _ _ _ _ _

/-- `comment` never lengthens the remaining input. -/
theorem Lexer.comment_le (s : LexState) :
    (Lexer.comment s).2.input.length ≤ s.input.length := by
  rw [Lexer.comment]
  cases h : s.input with
  | nil => simp [h]
  | cons c rest =>
      have hadv : ((Lexer.advance s).2).input = rest :=
        Lexer.advance_input_cons s c rest h
      by_cases h1 : c = '/'
      · simp only [h1, if_true]
        rcases hl : Lexer.commentLineLoop (Lexer.advance s).2 "//" with ⟨acc, s2⟩
        have h2 : s2.input.length ≤ rest.length := by
          have := Lexer.commentLineLoopF_le ((Lexer.advance s).2.input.length + 1)
            (Lexer.advance s).2 "//"
          rw [Lexer.commentLineLoop] at hl
          rw [hl, hadv] at this
          exact this
        simp only [hl]
        calc s2.input.length ≤ rest.length := h2
          _ ≤ (c :: rest).length := by simp
      · by_cases h2 : c = '*'
        · simp only [h1, h2, if_false, if_true]
          rcases hl : Lexer.commentBlockLoop (Lexer.advance s).2 "/*" '\x00' with ⟨acc, s2⟩
          have h3 : s2.input.length ≤ rest.length := by
            have := Lexer.commentBlockLoopF_le ((Lexer.advance s).2.input.length + 1)
              (Lexer.advance s).2 "/*" '\x00'
            rw [Lexer.commentBlockLoop] at hl
            rw [hl, hadv] at this
            exact this
          simp only [hl]
          calc s2.input.length ≤ rest.length := h3
            _ ≤ (c :: rest).length := by simp
        · simp [h1, h2, h]

/-- `twoCharOp` never lengthens the remaining input. -/
theorem Lexer.twoCharOp_le (s : LexState) (first : String) (second : Char)
    (oneTy twoTy : TokenType) (twoLex : String) :
    (Lexer.twoCharOp s first second oneTy twoTy twoLex).2.input.length ≤
      s.input.length := by
  rw [Lexer.twoCharOp]
  cases h : s.input with
  | nil => simp [h]
  | cons c rest =>
      have hadv : ((Lexer.advance s).2).input = rest :=
        Lexer.advance_input_cons s c rest h
      dsimp only
      split
      · simp only [hadv, List.length_cons]; omega
      · simp only [h, List.length_cons]; omega

/-- Each `next_token` round either produces the final `EOF` token or
strictly shrinks the remaining input. -/
theorem Lexer.nextToken_desc (s₀ : LexState) :
    (Lexer.nextToken s₀).1.token_type = .EOF ∨
      (Lexer.nextToken s₀).2.input.length < s₀.input.length := by
  have hsw : (Lexer.skipWhitespace s₀).input.length ≤ s₀.input.length :=
    Lexer.skipWhitespace_le s₀
  rw [Lexer.nextToken]
  cases h : (Lexer.skipWhitespace s₀).input with
  | nil => left; rfl
  | cons c rest =>
      right
      have hadv : ((Lexer.advance (Lexer.skipWhitespace s₀)).2).input = rest :=
        Lexer.advance_input_cons _ c rest h
      have hlt : rest.length < s₀.input.length := by
        rw [h] at hsw
        simp only [List.length_cons] at hsw
        omega
      refine lt_of_le_of_lt ?_ hlt
      have hbase :
          (Lexer.advance (Lexer.skipWhitespace s₀)).2.input.length ≤ rest.length :=
        le_of_eq (congrArg List.length hadv)
      dsimp only
      by_cases h1 : c.isAlpha ∨ c = '_'
      · rw [if_pos h1]
        exact le_trans (Lexer.identifier_le _ _) hbase
      · rw [if_neg h1]
        by_cases h2 : c.isDigit
        · rw [if_pos h2]
          exact le_trans (Lexer.number_le _ _) hbase
        · rw [if_neg h2]
          by_cases h3 : c = '"'
          · rw [if_pos h3]
            exact le_trans (Lexer.stringLit_le _) hbase
          · rw [if_neg h3]
            by_cases h4 : c = '/'
            · rw [if_pos h4]
              exact le_trans (Lexer.comment_le _) hbase
            · rw [if_neg h4]
              by_cases h5 : c = '+'
              · rw [if_pos h5]
                exact le_trans (Lexer.twoCharOp_le _ _ _ _ _ _) hbase
              · rw [if_neg h5]
                by_cases h6 : c = '-'
                · rw [if_pos h6]
                  rcases rest with _ | ⟨nx, r2⟩
                  · simp only [hadv]
                    exact le_refl _
                  · simp only [hadv]
                    have hstep :
                        (Lexer.advance (Lexer.advance (Lexer.skipWhitespace s₀)).2).2.input.length ≤
                          (nx :: r2).length := by
                      rw [Lexer.advance_input_cons _ _ _ hadv]
                      simp
                    by_cases hm1 : nx = '='
                    · rw [if_pos hm1]
                      exact hstep
                    · rw [if_neg hm1]
                      by_cases hm2 : nx = '>'
                      · rw [if_pos hm2]
                        exact hstep
                      · rw [if_neg hm2]
                        simp only [hadv]
                        exact le_refl _
                · rw [if_neg h6]
                  by_cases h7 : c = '*'
                  · rw [if_pos h7]
                    exact le_trans (Lexer.twoCharOp_le _ _ _ _ _ _) hbase
                  · rw [if_neg h7]
                    by_cases h8 : c = '%'
                    · rw [if_pos h8]
                      exact hbase
                    · rw [if_neg h8]
                      by_cases h9 : c = '^'
                      · rw [if_pos h9]
                        exact hbase
                      · rw [if_neg h9]
                        by_cases h10 : c = '='
                        · rw [if_pos h10]
                          exact le_trans (Lexer.twoCharOp_le _ _ _ _ _ _) hbase
                        · rw [if_neg h10]
                          by_cases h11 : c = '!'
                          · rw [if_pos h11]
                            exact le_trans (Lexer.twoCharOp_le _ _ _ _ _ _) hbase
                          · rw [if_neg h11]
                            by_cases h12 : c = '>'
                            · rw [if_pos h12]
                              exact le_trans (Lexer.twoCharOp_le _ _ _ _ _ _) hbase
                            · rw [if_neg h12]
                              by_cases h13 : c = '<'
                              · rw [if_pos h13]
                                exact le_trans (Lexer.twoCharOp_le _ _ _ _ _ _) hbase
                              · rw [if_neg h13]
                                by_cases h14 : c = '('
                                · rw [if_pos h14]
                                  exact hbase
                                · rw [if_neg h14]
                                  by_cases h15 : c = ')'
                                  · rw [if_pos h15]
                                    exact hbase
                                  · rw [if_neg h15]
                                    by_cases h16 : c = '\x7b'
                                    · rw [if_pos h16]
                                      exact hbase
                                    · rw [if_neg h16]
                                      by_cases h17 : c = '\x7d'
                                      · rw [if_pos h17]
                                        exact hbase
                                      · rw [if_neg h17]
                                        by_cases h18 : c = '['
                                        · rw [if_pos h18]
                                          exact hbase
                                        · rw [if_neg h18]
                                          by_cases h19 : c = ']'
                                          · rw [if_pos h19]
                                            exact hbase
                                          · rw [if_neg h19]
                                            by_cases h20 : c = ';'
                                            · rw [if_pos h20]
                                              exact hbase
                                            · rw [if_neg h20]
                                              by_cases h21 : c = ':'
                                              · rw [if_pos h21]
                                                exact hbase
                                              · rw [if_neg h21]
                                                by_cases h22 : c = ','
                                                · rw [if_pos h22]
                                                  exact hbase
                                                · rw [if_neg h22]
                                                  by_cases h23 : c = '.'
                                                  · rw [if_pos h23]
                                                    exact le_trans (Lexer.twoCharOp_le _ _ _ _ _ _) hbase
                                                  · rw [if_neg h23]
                                                    exact hbase

/-- With fuel exceeding the remaining input length, `tokenizeAux` succeeds
and yields a token list ending in one `EOF` token, with every earlier token
neither `EOF` nor `Comment`. -/
theorem Lexer.tokenizeAux_spec :
    ∀ (fuel : Nat) (s : LexState), s.input.length < fuel →
      ∃ ts eof, Lexer.tokenizeAux fuel s = some (ts ++ [eof]) ∧
        eof.token_type = .EOF ∧
        ts.all (fun t =>
          decide (t.token_type ≠ .EOF ∧ t.token_type ≠ .Comment)) = true := by
  intro fuel
  induction fuel with
  | zero => intro s h; exact absurd h (Nat.not_lt_zero _)
  | succ n ih =>
      intro s h
      rcases hnt : Lexer.nextToken s with ⟨tok, s1⟩
      by_cases heof : tok.token_type = .EOF
      · refine ⟨[], tok, ?_, heof, rfl⟩
        simp [Lexer.tokenizeAux, hnt, heof]
      · have hd := Lexer.nextToken_desc s
        rw [hnt] at hd
        simp only at hd
        rcases hd with hd | hd
        · exact absurd hd heof
        · have hlt : s1.input.length < n := by omega
          obtain ⟨ts, eof, hrec, heof2, hall⟩ := ih s1 hlt
          by_cases hcm : tok.token_type = .Comment ∨ tok.token_type = .Whitespace
          · refine ⟨ts, eof, ?_, heof2, hall⟩
            rcases hcm with hcm | hcm <;>
              simp [Lexer.tokenizeAux, hnt, heof, hcm, hrec]
          · push_neg at hcm
            refine ⟨tok :: ts, eof, ?_, heof2, ?_⟩
            · simp [Lexer.tokenizeAux, hnt, heof, hcm.1, hcm.2, hrec]
            · simp only [List.all_cons, Bool.and_eq_true, decide_eq_true_eq]
              exact ⟨⟨heof, hcm.1⟩, hall⟩

/-- C9: `tokenize` always terminates with a token sequence whose last
element is the unique `EOF` token, with no `Comment` token surviving into
the output; and `next_token` always yields a token — an unrecognized
character such as `@` yields an `Invalid` token rather than a failure. -/
theorem C9_tokenize_eof_terminated :
    (∀ source : String,
      ∃ ts eof, Lexer.tokenize source = some (ts ++ [eof]) ∧
        eof.token_type = .EOF ∧
        ts.all (fun t =>
          decide (t.token_type ≠ .EOF ∧ t.token_type ≠ .Comment)) = true) ∧
    (Lexer.nextToken (Lexer.new "@")).1.token_type = .Invalid := by
  constructor
  · intro source
    rw [Lexer.tokenize]
    exact Lexer.tokenizeAux_spec _ _ (by simp [Lexer.new])
  · rfl

/-- While a current token exists, `advance` strictly decreases the
synchronization measure. -/
theorem Parser.syncMeasure_advance_lt (s : PState) (t : Token) (h : s.cur = some t) :
    Parser.syncMeasure (Parser.advance s) < Parser.syncMeasure s := by
  cases hr : s.rest <;>
    simp [Parser.syncMeasure, Parser.advance, h, hr]

/-- With fuel exceeding the synchronization measure, `synchronizeF`
implements the panic-mode recovery contract `SyncStops`. -/
theorem Parser.synchronizeF_spec :
    ∀ (fuel : Nat) (s : PState), Parser.syncMeasure s < fuel →
      SyncStops s (Parser.synchronizeF fuel s) := by
  intro fuel
  induction fuel with
  | zero => intro s h; exact absurd h (Nat.not_lt_zero _)
  | succ n ih =>
      intro s h
      rw [Parser.synchronizeF]
      cases hc : s.cur with
      | none =>
          refine ⟨rfl, 0, ?_, Or.inl ⟨rfl, hc⟩⟩
          intro m hm
          exact absurd hm (Nat.not_lt_zero _)
      | some token =>
          dsimp only
          by_cases hsemi : token.token_type = .Semicolon
          · rw [if_pos hsemi]
            refine ⟨rfl, 0, ?_, Or.inr (Or.inr ⟨token, hc, hsemi, rfl⟩)⟩
            intro m hm
            exact absurd hm (Nat.not_lt_zero _)
          · rw [if_neg hsemi]
            by_cases hstart : Parser.isSyncStart token.token_type = true
            · rw [if_pos hstart]
              refine ⟨rfl, 0, ?_, Or.inr (Or.inl ⟨rfl, token, hc, hstart⟩)⟩
              intro m hm
              exact absurd hm (Nat.not_lt_zero _)
            · rw [if_neg hstart]
              have hmlt : Parser.syncMeasure (Parser.advance s) < n := by
                have := Parser.syncMeasure_advance_lt s token hc
                omega
              obtain ⟨herr, k, hskip, hfin⟩ := ih (Parser.advance s) hmlt
              refine ⟨herr, k + 1, ?_, ?_⟩
              · intro m hm t hcur
                cases m with
                | zero =>
                    have ht : token = t := by
                      have hcur2 : s.cur = some t := hcur
                      rw [hc] at hcur2
                      exact Option.some.inj hcur2
                    subst ht
                    exact ⟨hsemi, by simpa using hstart⟩
                | succ m =>
                    exact hskip m (by omega) t hcur
              · exact hfin

/-- C4: when `parse_program` completes, `parse` returns the `Program` node
exactly when no parse error was recorded, and otherwise returns precisely
the accumulated error list; `synchronize` obeys the panic-mode recovery
contract (skip only non-`;`, non-starter tokens, stopping at end of input,
at an unconsumed declaration starter, or just past a consumed `;`); and on
the two-bad-declaration input `let x = ; let y = ;` the parser collects the
errors of both declarations (plus the end-of-stream report). -/
theorem C4_parse_collects_errors
    (fuel : Nat) (tokens : List Token) (prog : AstNode) (s' : PState)
    (h : Parser.parseProgram fuel (Parser.new tokens) = some (prog, s')) :
    (Parser.parse fuel tokens = some (.ok prog) ↔ s'.errors = []) ∧
    (s'.errors ≠ [] → Parser.parse fuel tokens = some (.error s'.errors)) ∧
    (∀ s, SyncStops s (Parser.synchronize s)) ∧
    (match Lexer.tokenize "let x = ; let y = ;" with
      | some ts => Parser.parse 100 ts
      | none => none) =
      some (.error ["Beklenmeyen token: Semicolon, satır: 1, sütun: 9",
        "Beklenmeyen token: Semicolon, satır: 1, sütun: 19",
        "Beklenmeyen token: EOF, satır: 1, sütun: 20"]) := by
  refine ⟨?_, ?_, fun s => Parser.synchronizeF_spec _ s (Nat.lt_succ_self _), by rfl⟩
  · constructor
    · intro hp
      cases hE : s'.errors with
      | nil => rfl
      | cons e es =>
          rw [show Parser.parse fuel tokens = some (.error s'.errors) from by
            simp [Parser.parse, h, hE]] at hp
          simp [hE] at hp
    · intro hE
      simp [Parser.parse, h, hE]
  · intro hne
    cases hE : s'.errors with
    | nil => exact absurd hE hne
    | cons e es =>
        rw [← hE]
        simp [Parser.parse, h, hE]

/-- Witness for C4 at the empty token stream, where `parse_program`
completes immediately with an empty error list. -/
theorem C4_parse_collects_errors_witness :
    (Parser.parse 1 [] = some (.ok (AstNode.new .Program none)) ↔
      (⟨[], none, []⟩ : PState).errors = []) ∧
    ((⟨[], none, []⟩ : PState).errors ≠ [] →
      Parser.parse 1 [] = some (.error (⟨[], none, []⟩ : PState).errors)) ∧
    (∀ s, SyncStops s (Parser.synchronize s)) ∧
    (match Lexer.tokenize "let x = ; let y = ;" with
      | some ts => Parser.parse 100 ts
      | none => none) =
      some (.error ["Beklenmeyen token: Semicolon, satır: 1, sütun: 9",
        "Beklenmeyen token: Semicolon, satır: 1, sütun: 19",
        "Beklenmeyen token: EOF, satır: 1, sütun: 20"]) :=
  C4_parse_collects_errors 1 [] (AstNode.new .Program none) ⟨[], none, []⟩ rfl

end Ravun
